import Mathlib

/-!
Shallow embedding of the brainflash-server core: the refresh-token lifecycle
(src/app/auth.py, src/app/routes/refresh.py, src/app/routes/auth.py) and the
flashcard aggregate persistence layer (src/app/routes/decks.py,
src/app/routes/flashcards.py, src/app/database.py).

Datetimes are modelled as integer timestamps; Python datetime objects that may
carry a tzinfo (the FSRS `due` field) are modelled by `PyDateTime` with an
explicit optional timezone component.  The SHA-256 digest used for token
hashing is an explicit function parameter `h` of the operations, and the
operating-system randomness consumed by `secrets.token_urlsafe` is an explicit
byte-list parameter.
-/

namespace BrainFlash

/-! ## Python `secrets.token_urlsafe`

`secrets.token_urlsafe(n)` is `base64.urlsafe_b64encode(os.urandom(n))` with
the `=` padding stripped.  We model the byte string returned by `os.urandom`
as a `List Nat` of values `< 256` and implement the URL-safe base64 encoding
directly (the padding is simply never emitted, which agrees with the stripped
form). -/

/-- The URL-safe base64 alphabet `A-Z a-z 0-9 - _` used by
`base64.urlsafe_b64encode`. -/
def b64urlAlphabet : List Char :=
  ['A','B','C','D','E','F','G','H','I','J','K','L','M','N','O','P','Q','R','S',
   'T','U','V','W','X','Y','Z','a','b','c','d','e','f','g','h','i','j','k','l',
   'm','n','o','p','q','r','s','t','u','v','w','x','y','z','0','1','2','3','4',
   '5','6','7','8','9','-','_']

/-- Split a byte string into 6-bit groups, exactly as base64 does (final
partial group padded with zero bits; no `=` characters are produced). -/
def sextets : List Nat → List Nat
  | a :: b :: c :: rest =>
      a / 4 :: ((a % 4) * 16 + b / 16) :: ((b % 16) * 4 + c / 64) :: (c % 64) :: sextets rest
  | [a, b] => [a / 4, (a % 4) * 16 + b / 16, (b % 16) * 4]
  | [a] => [a / 4, (a % 4) * 16]
  | [] => []

/-- Inverse of `sextets` (used only to prove that the encoding loses no
entropy). -/
def unsextets : List Nat → List Nat
  | s0 :: s1 :: s2 :: s3 :: rest =>
      (s0 * 4 + s1 / 16) :: ((s1 % 16) * 16 + s2 / 4) :: ((s2 % 4) * 64 + s3) :: unsextets rest
  | [s0, s1, s2] => [s0 * 4 + s1 / 16, (s1 % 16) * 16 + s2 / 4]
  | [s0, s1] => [s0 * 4 + s1 / 16]
  | _ => []

/-- Predicate: every element of the list is a byte value. -/
def AllBytes (l : List Nat) : Prop := ∀ x ∈ l, x < 256

instance : DecidablePred AllBytes := fun l =>
  inferInstanceAs (Decidable (∀ x ∈ l, x < 256))

theorem unsextets_sextets (l : List Nat) (hb : AllBytes l) : unsextets (sextets l) = l := by
  induction l using sextets.induct with
  | case1 a b c rest ih =>
      have ha : a < 256 := hb a (by simp)
      have hbb : b < 256 := hb b (by simp)
      have hc : c < 256 := hb c (by simp)
      have hrest : AllBytes rest := fun x hx => hb x (by simp [hx])
      simp only [sextets, unsextets, ih hrest, List.cons.injEq, and_true]
      refine ⟨?_, ?_, ?_⟩ <;> omega
  | case2 a b =>
      have ha : a < 256 := hb a (by simp)
      have hbb : b < 256 := hb b (by simp)
      simp only [sextets, unsextets, List.cons.injEq, and_true]
      refine ⟨?_, ?_⟩ <;> omega
  | case3 a =>
      have ha : a < 256 := hb a (by simp)
      simp only [sextets, unsextets, List.cons.injEq, and_true]
      omega
  | case4 => rfl

theorem sextets_lt_64 (l : List Nat) (hb : AllBytes l) : ∀ s ∈ sextets l, s < 64 := by
  induction l using sextets.induct with
  | case1 a b c rest ih =>
      have ha : a < 256 := hb a (by simp)
      have hbb : b < 256 := hb b (by simp)
      have hc : c < 256 := hb c (by simp)
      have hrest : AllBytes rest := fun x hx => hb x (by simp [hx])
      intro s hs
      simp only [sextets, List.mem_cons] at hs
      rcases hs with h | h | h | h | h
      · omega
      · omega
      · omega
      · omega
      · exact ih hrest s h
  | case2 a b =>
      have ha : a < 256 := hb a (by simp)
      have hbb : b < 256 := hb b (by simp)
      intro s hs
      simp only [sextets, List.mem_cons, List.not_mem_nil, or_false] at hs
      rcases hs with h | h | h <;> omega
  | case3 a =>
      have ha : a < 256 := hb a (by simp)
      intro s hs
      simp only [sextets, List.mem_cons, List.not_mem_nil, or_false] at hs
      rcases hs with h | h <;> omega
  | case4 => intro s hs; simp [sextets] at hs

/-- Map a 6-bit group to its URL-safe base64 character. -/
def b64Char (n : Nat) : Char := b64urlAlphabet.getD n 'A'

/-- URL-safe base64 encoding of a byte string, padding stripped. -/
def b64urlEncode (bytes : List Nat) : String :=
  String.mk ((sextets bytes).map b64Char)

/-- Model of `secrets.token_urlsafe(nbytes)`: the caller passes in the
`nbytes` bytes that `os.urandom` produced. -/
def token_urlsafe (rand : List Nat) : String := b64urlEncode rand

theorem b64Char_injOn : ∀ i : Fin 64, ∀ j : Fin 64, b64Char i.val = b64Char j.val → i = j := by
  decide

theorem map_b64Char_inj (l1 l2 : List Nat) (h1 : ∀ s ∈ l1, s < 64) (h2 : ∀ s ∈ l2, s < 64)
    (he : l1.map b64Char = l2.map b64Char) : l1 = l2 := by
  induction l1 generalizing l2 with
  | nil => cases l2 with
    | nil => rfl
    | cons b t => simp at he
  | cons a t ih =>
      cases l2 with
      | nil => simp at he
      | cons b t2 =>
          simp only [List.map_cons, List.cons.injEq] at he
          have ha : a < 64 := h1 a (by simp)
          have hb : b < 64 := h2 b (by simp)
          have hfin : (⟨a, ha⟩ : Fin 64) = ⟨b, hb⟩ := b64Char_injOn ⟨a, ha⟩ ⟨b, hb⟩ he.1
          have hab : a = b := by simpa using congrArg Fin.val hfin
          have ht : t = t2 := ih t2 (fun s hs => h1 s (by simp [hs]))
            (fun s hs => h2 s (by simp [hs])) he.2
          rw [hab, ht]

/-- The token encoding loses no entropy: distinct byte strings give distinct
raw tokens. -/
theorem token_urlsafe_inj (r1 r2 : List Nat) (hb1 : AllBytes r1) (hb2 : AllBytes r2)
    (he : token_urlsafe r1 = token_urlsafe r2) : r1 = r2 := by
  have hchars : (sextets r1).map b64Char = (sextets r2).map b64Char := by
    have := congrArg String.data he
    simpa [token_urlsafe, b64urlEncode] using this
  have hsx : sextets r1 = sextets r2 :=
    map_b64Char_inj _ _ (sextets_lt_64 r1 hb1) (sextets_lt_64 r2 hb2) hchars
  calc r1 = unsextets (sextets r1) := (unsextets_sextets r1 hb1).symm
    _ = unsextets (sextets r2) := by rw [hsx]
    _ = r2 := unsextets_sextets r2 hb2

theorem b64Char_mem : ∀ i : Fin 64, b64Char i.val ∈ b64urlAlphabet := by decide

theorem token_urlsafe_urlsafe (rand : List Nat) (hb : AllBytes rand) :
    ∀ c ∈ (token_urlsafe rand).data, c ∈ b64urlAlphabet := by
  intro c hc
  simp only [token_urlsafe, b64urlEncode, List.mem_map] at hc
  obtain ⟨s, hs, rfl⟩ := hc
  have hlt : s < 64 := sextets_lt_64 rand hb s hs
  exact b64Char_mem ⟨s, hlt⟩

/-! ## Refresh token store (src/app/database.py `RefreshToken`, src/app/auth.py,
src/app/routes/refresh.py)

The `RefreshToken` table row; `id` is the autoincrement primary key, datetimes
are integer timestamps (seconds).  Note the row type has no field that could
hold a raw token: only `token_hash` is stored, mirroring the schema. -/

structure RefreshTokenRow where
  id : Nat
  user_id : Nat
  token_hash : String
  issued_at : Int
  expires_at : Int
  revoked : Bool
deriving Repr, DecidableEq

/-- The state touched by the token endpoints: the `users` table (only ids
matter here) and the `refresh_tokens` table, plus the next autoincrement id. -/
structure AuthDB where
  users : List Nat
  tokens : List RefreshTokenRow
  nextTokenId : Nat
deriving Repr, DecidableEq

/-- `REFRESH_TOKEN_LIFETIME_DAYS` default from src/app/auth.py. -/
def REFRESH_TOKEN_LIFETIME_DAYS : Nat := 30

/-- `timedelta(days=REFRESH_TOKEN_LIFETIME_DAYS)` in seconds. -/
def refreshLifetimeSeconds : Int := (REFRESH_TOKEN_LIFETIME_DAYS : Int) * 24 * 3600

/-- src/app/routes/refresh.py `_find_refresh`: hash the raw token (the digest
`h` models `hashlib.sha256(...).hexdigest()`), select rows whose `token_hash`
matches and whose `revoked` flag is false, and return `scalar_one_or_none` of
the result (none for zero rows; more than one row raises in the source, which
the unique index on `token_hash` rules out, and is mapped to `none` here). -/
def find_refresh (h : String → String) (tokens : List RefreshTokenRow) (raw : String) :
    Option RefreshTokenRow :=
  match tokens.filter (fun t => t.token_hash == h raw && t.revoked == false) with
  | [t] => some t
  | _ => none

/-- `update(RefreshToken).where(RefreshToken.id == i).values(revoked=True)`. -/
def revokeById (tokens : List RefreshTokenRow) (i : Nat) : List RefreshTokenRow :=
  tokens.map (fun t => if t.id == i then { t with revoked := true } else t)

inductive RefreshError
  | missingToken      -- 401 "Missing refresh token"
  | invalidToken      -- 401 "Invalid refresh token"
  | expiredToken      -- 401 "Expired refresh token"
  | userNotFound      -- 401 "User not found"
  | backendFailure    -- 500 "Unable to obtain access token from auth backend"
deriving Repr, DecidableEq

/-- The validation stage of src/app/routes/refresh.py `refresh` (lines 27-31):
look the token up by hash with `revoked == False` filtered, failing with the
invalid-token error, then compare `expires_at` against now, failing with the
expired-token error. -/
def refreshValidate (h : String → String) (now : Int) (tokens : List RefreshTokenRow)
    (raw : String) : Except RefreshError RefreshTokenRow :=
  match find_refresh h tokens raw with
  | none => .error .invalidToken
  | some rt => if rt.expires_at < now then .error .expiredToken else .ok rt

/-- Result of a successful refresh: the committed store, the access token from
the auth backend, and the new raw refresh token set in the cookie. -/
structure RefreshOk where
  db : AuthDB
  accessToken : String
  newRefreshToken : String
deriving Repr, DecidableEq

/-- src/app/routes/refresh.py `refresh`.  `h` is the SHA-256 hex digest,
`backend` models `auth_backend.login` returning the access token (none when
the body held no access token), `now` is `datetime.now()`, `rand` is the
64-byte `os.urandom` output consumed by `secrets.token_urlsafe(64)`, and
`cookie` is the optional `refresh_token` cookie.  On success the old row is
revoked and the new row inserted, both in the single commit that produces the
returned store.  `refreshWithToken` is the body once the cookie is present. -/
def refreshWithToken (h : String → String) (backend : Nat → Option String) (now : Int)
    (rand : List Nat) (db : AuthDB) (raw : String) : Except RefreshError RefreshOk :=
  match refreshValidate h now db.tokens raw with
  | .error e => .error e
  | .ok rt =>
    if db.users.contains rt.user_id = false then .error .userNotFound
    else
      match backend rt.user_id with
      | none => .error .backendFailure
      | some accessToken =>
        let newRaw := token_urlsafe rand
        let newHash := h newRaw
        let expiresAt := now + refreshLifetimeSeconds
        let newRt : RefreshTokenRow :=
          { id := db.nextTokenId, user_id := rt.user_id, token_hash := newHash,
            issued_at := now, expires_at := expiresAt, revoked := false }
        .ok { db := { users := db.users,
                      tokens := revokeById db.tokens rt.id ++ [newRt],
                      nextTokenId := db.nextTokenId + 1 },
              accessToken := accessToken,
              newRefreshToken := newRaw }

def refresh (h : String → String) (backend : Nat → Option String) (now : Int)
    (rand : List Nat) (db : AuthDB) (cookie : Option String) :
    Except RefreshError RefreshOk :=
  match cookie with
  | none => .error .missingToken
  | some raw => refreshWithToken h backend now rand db raw

/-- src/app/routes/refresh.py `logout`.  Always returns the logged-out ack;
the boolean records that `delete_cookie("refresh_token")` ran.  The function
is total: the source has no failure path.  `logoutWithToken` is the body once
the cookie is present. -/
def logoutWithToken (h : String → String) (db : AuthDB) (raw : String) : AuthDB × Bool :=
  match find_refresh h db.tokens raw with
  | none => (db, true)
  | some rt => ({ db with tokens := revokeById db.tokens rt.id }, true)

def logout (h : String → String) (db : AuthDB) (cookie : Option String) : AuthDB × Bool :=
  match cookie with
  | none => (db, true)
  | some raw => logoutWithToken h db raw

/-- src/app/auth.py `UserManager.on_after_login` (and equivalently the custom
login route in src/app/routes/auth.py): mint a raw token from 64 random
bytes, store only its hash with a fresh expiry, and return the raw value for
the cookie. -/
def on_after_login (h : String → String) (now : Int) (rand : List Nat) (userId : Nat)
    (db : AuthDB) : AuthDB × String :=
  let raw := token_urlsafe rand
  let tokenHash := h raw
  let expiresAt := now + refreshLifetimeSeconds
  ({ db with
      tokens := db.tokens ++
        [{ id := db.nextTokenId, user_id := userId, token_hash := tokenHash,
           issued_at := now, expires_at := expiresAt, revoked := false }],
      nextTokenId := db.nextTokenId + 1 },
   raw)

/-! ### Reachability of token-store states

One step per entry point that touches the `refresh_tokens` table: login,
refresh and logout.  The `rand` arguments are constrained to 64 bytes because
every call site is `secrets.token_urlsafe(64)`. -/

inductive AuthStep (h : String → String) : AuthDB → AuthDB → Prop
  | login (now : Int) (rand : List Nat) (userId : Nat) (db : AuthDB)
      (hrand : rand.length = 64) (hbytes : AllBytes rand) :
      AuthStep h db (on_after_login h now rand userId db).1
  | refreshOk (backend : Nat → Option String) (now : Int) (rand : List Nat)
      (db : AuthDB) (cookie : Option String) (out : RefreshOk)
      (hrand : rand.length = 64) (hbytes : AllBytes rand)
      (hok : refresh h backend now rand db cookie = .ok out) :
      AuthStep h db out.db
  | logoutStep (db : AuthDB) (cookie : Option String) :
      AuthStep h db (logout h db cookie).1

/-- States reachable from an empty token table. -/
inductive AuthReachable (h : String → String) : AuthDB → Prop
  | init (users : List Nat) (nextId : Nat) :
      AuthReachable h { users := users, tokens := [], nextTokenId := nextId }
  | step (db db2 : AuthDB) (hr : AuthReachable h db) (hs : AuthStep h db db2) :
      AuthReachable h db2

/-! ## Flashcard aggregate (src/app/database.py, src/app/schemas_db.py,
src/app/routes/decks.py, src/app/routes/flashcards.py) -/

/-- A Python `datetime`: a timestamp plus an optional `tzinfo` (UTC offset in
seconds); `tz = none` is a timezone-naive value. -/
structure PyDateTime where
  seconds : Int
  tz : Option Int
deriving Repr, DecidableEq

/-- Python `d.replace(tzinfo=None)`. -/
def PyDateTime.replaceTzNone (d : PyDateTime) : PyDateTime := { d with tz := none }

/-- src/app/schemas_db.py `AudioSchema` (`signed_url_files`, an optional
response-only field never read on the write paths modelled here, is omitted). -/
structure AudioSchema where
  filename : String
  timing_filename : String
deriving Repr, DecidableEq

/-- src/app/schemas_db.py `DiscussionSchema`; all three fields are required. -/
structure DiscussionSchema where
  ssml_text : String
  text : String
  audio : AudioSchema
deriving Repr, DecidableEq

/-- src/app/schemas_db.py `FinalCardSchema`; all four fields are required. -/
structure FinalCardSchema where
  front : String
  back : String
  question_audio : AudioSchema
  answer_audio : AudioSchema
deriving Repr, DecidableEq

/-- src/app/schemas_db.py `FSRSSchema`: `due` required, the rest optional with
default `None`. -/
structure FSRSSchema where
  due : PyDateTime
  stability : Option Int
  difficulty : Option Int
  elapsed_days : Option Int
  scheduled_days : Option Int
  reps : Option Int
  lapses : Option Int
  state : Option Int
  learning_steps : Option Int
  audio_id : Option Nat
deriving Repr, DecidableEq

/-- src/app/schemas_db.py `FlashcardCreate`: `deck_id` is Optional (from
`FlashcardBase`); the three sections are declared required by the schema but
the route still guards each with `if payload.section:`, so they are modelled
as options. -/
structure FlashcardCreate where
  deck_id : Option Nat
  stage : Int
  discussion : Option DiscussionSchema
  final_card : Option FinalCardSchema
  fsrs : Option FSRSSchema
deriving Repr, DecidableEq

/-- src/app/schemas_db.py `FlashcardUpdate`: every field optional. -/
structure FlashcardUpdate where
  deck_id : Option Nat
  stage : Option Int
  discussion : Option DiscussionSchema
  final_card : Option FinalCardSchema
  fsrs : Option FSRSSchema
deriving Repr, DecidableEq

/-- src/app/database.py `FlashcardDeck` (`created_at` carries no behaviour in
the claims and is omitted). -/
structure DeckRow where
  id : Nat
  name : String
  owner_id : Nat
deriving Repr, DecidableEq

/-- src/app/database.py `Flashcard` row (scalar columns). -/
structure FlashcardRow where
  id : Nat
  deck_id : Nat
  stage : Int
deriving Repr, DecidableEq

/-- src/app/database.py `AudioFile` row. -/
structure AudioFileRow where
  id : Nat
  filename : String
  timing_filename : String
deriving Repr, DecidableEq

/-- src/app/database.py `FlashcardDiscussion`: the `flashcard_discussions`
table columns; `audio_id` is the foreign key to `audio_files`. -/
structure DiscussionRow where
  flashcard_id : Nat
  ssml_text : String
  text : String
  audio_id : Option Nat
deriving Repr, DecidableEq

/-- src/app/database.py `FlashcardFinalCard`: the `flashcard_final_cards`
table columns; the two audio foreign keys point at `audio_files`. -/
structure FinalCardRow where
  flashcard_id : Nat
  front : String
  back : String
  question_audio_id : Option Nat
  answer_audio_id : Option Nat
deriving Repr, DecidableEq

/-- src/app/database.py `FlashcardFSRS`.  The table has no `audio_id`
column. -/
structure FSRSRow where
  flashcard_id : Nat
  due : PyDateTime
  stability : Option Int
  difficulty : Option Int
  elapsed_days : Option Int
  scheduled_days : Option Int
  reps : Option Int
  lapses : Option Int
  state : Option Int
  learning_steps : Option Int
deriving Repr, DecidableEq

/-- The tables touched by the deck and flashcard routes, plus autoincrement
counters for the two integer primary keys allocated by flushes. -/
structure FCStore where
  decks : List DeckRow
  cards : List FlashcardRow
  discussions : List DiscussionRow
  final_cards : List FinalCardRow
  fsrs_rows : List FSRSRow
  audio_files : List AudioFileRow
  next_card_id : Nat
  next_audio_id : Nat
deriving Repr, DecidableEq

inductive FCError
  | deckNotFound       -- 404 "Deck not found"
  | flashcardNotFound  -- 404 "Flashcard not found"
  | dbFailure          -- a storage flush or commit raised; transaction rolled back
  | typeError          -- Python TypeError raised in the handler (500), e.g. an
                       -- undeclared keyword argument to a model constructor
  | unmappedInstanceError  -- the flush at commit rejects a plain dict assigned
                           -- to a relationship attribute (500)
deriving Repr, DecidableEq

/-- `session.get(FlashcardDeck, deck_id)`. -/
def getDeck (s : FCStore) (deck_id : Nat) : Option DeckRow :=
  s.decks.find? (fun d => d.id == deck_id)

/-- `session.get(Flashcard, flashcard_id)`. -/
def getCard (s : FCStore) (flashcard_id : Nat) : Option FlashcardRow :=
  s.cards.find? (fun c => c.id == flashcard_id)

/-! ### Create (src/app/routes/flashcards.py `create_flashcard`)

The route stages rows with `session.add` and calls `await session.flush()`
after the card insert and after each `AudioFile` insert, then one
`await session.commit()`.  Each flush or the commit may raise; the oracle
`io k` gives the outcome of the k-th such call within the request.  On any
failure the session is closed without commit, so nothing is persisted. -/

/-- The `if payload.discussion:` block: allocate the owned `AudioFile` row
first (flush assigns its id), then the section row referencing it and the
card. -/
def createDiscussion (io : Nat → Bool) (cardId : Nat) (pd : Option DiscussionSchema)
    (s : FCStore) (k : Nat) : Except FCError (FCStore × Nat) :=
  match pd with
  | none => .ok (s, k)
  | some d =>
    if io k = false then .error .dbFailure else
    let aid := s.next_audio_id
    .ok ({ s with
            audio_files := s.audio_files ++
              [{ id := aid, filename := d.audio.filename,
                 timing_filename := d.audio.timing_filename }],
            next_audio_id := aid + 1,
            discussions := s.discussions ++
              [{ flashcard_id := cardId, ssml_text := d.ssml_text, text := d.text,
                 audio_id := some aid }] },
          k + 1)

/-- The `if payload.final_card:` block: two owned `AudioFile` rows (question
then answer, a flush after each), then the section row. -/
def createFinalCard (io : Nat → Bool) (cardId : Nat) (pf : Option FinalCardSchema)
    (s : FCStore) (k : Nat) : Except FCError (FCStore × Nat) :=
  match pf with
  | none => .ok (s, k)
  | some f =>
    if io k = false then .error .dbFailure else
    let qaid := s.next_audio_id
    let s1 : FCStore := { s with
      audio_files := s.audio_files ++
        [{ id := qaid, filename := f.question_audio.filename,
           timing_filename := f.question_audio.timing_filename }],
      next_audio_id := qaid + 1 }
    if io (k + 1) = false then .error .dbFailure else
    let aaid := s1.next_audio_id
    let s2 : FCStore := { s1 with
      audio_files := s1.audio_files ++
        [{ id := aaid, filename := f.answer_audio.filename,
           timing_filename := f.answer_audio.timing_filename }],
      next_audio_id := aaid + 1,
      final_cards := s1.final_cards ++
        [{ flashcard_id := cardId, front := f.front, back := f.back,
           question_audio_id := some qaid, answer_audio_id := some aaid }] }
    .ok (s2, k + 2)

/-- The `if payload.fsrs:` block: no owned audio, no flush; note the
`payload.fsrs.due.replace(tzinfo=None)` normalization. -/
def createFSRS (cardId : Nat) (pf : Option FSRSSchema) (s : FCStore) : FCStore :=
  match pf with
  | none => s
  | some f =>
    { s with fsrs_rows := s.fsrs_rows ++
        [{ flashcard_id := cardId, due := f.due.replaceTzNone, stability := f.stability,
           difficulty := f.difficulty, elapsed_days := f.elapsed_days,
           scheduled_days := f.scheduled_days, reps := f.reps, lapses := f.lapses,
           state := f.state, learning_steps := f.learning_steps }] }

/-- src/app/routes/flashcards.py `create_flashcard`.  `session.get` with a
`None` key finds nothing, so a missing `deck_id` also yields the deck-not-found
error. -/
def create_flashcard (io : Nat → Bool) (s : FCStore) (p : FlashcardCreate) :
    Except FCError FCStore :=
  match p.deck_id with
  | none => .error .deckNotFound
  | some did =>
    match getDeck s did with
    | none => .error .deckNotFound
    | some _ =>
      if io 0 = false then .error .dbFailure else
      let cardId := s.next_card_id
      let s1 := { s with
        cards := s.cards ++ [{ id := cardId, deck_id := did, stage := p.stage }],
        next_card_id := cardId + 1 }
      match createDiscussion io cardId p.discussion s1 1 with
      | .error e => .error e
      | .ok (s2, k2) =>
        match createFinalCard io cardId p.final_card s2 k2 with
        | .error e => .error e
        | .ok (s3, k3) =>
          let s4 := createFSRS cardId p.fsrs s3
          if io k3 = false then .error .dbFailure else
          .ok s4

/-- The store visible after the request: the committed store on success, the
unchanged store after a rollback. -/
def runCreate (io : Nat → Bool) (s : FCStore) (p : FlashcardCreate) : FCStore :=
  match create_flashcard io s p with
  | .ok s2 => s2
  | .error _ => s

/-! ### Update (src/app/routes/flashcards.py `update_flashcard`) -/

/-- The scalar-field updates guarded by `if payload.deck_id is not None:` and
`if payload.stage is not None:`. -/
def applyCardScalars (item : FlashcardRow) (p : FlashcardUpdate) : FlashcardRow :=
  let i1 := match p.deck_id with
    | some did => { item with deck_id := did }
    | none => item
  match p.stage with
  | some st => { i1 with stage := st }
  | none => i1

/-- The existing-row branch of the `if payload.fsrs is not None:` block
(lines 157-166): every scalar column of the stored row is assigned from the
payload, with `payload.fsrs.due.replace(tzinfo=None)`.  The route only takes
this branch after `session.get` found the row, which the caller's guard in
`updateSections` establishes. -/
def overwriteFSRS (s : FCStore) (fid : Nat) (pf : Option FSRSSchema) : List FSRSRow :=
  match pf with
  | none => s.fsrs_rows
  | some f =>
    s.fsrs_rows.map (fun r =>
      if r.flashcard_id == fid then
        { r with due := f.due.replaceTzNone, stability := f.stability,
                 difficulty := f.difficulty, elapsed_days := f.elapsed_days,
                 scheduled_days := f.scheduled_days, reps := f.reps,
                 lapses := f.lapses, state := f.state,
                 learning_steps := f.learning_steps }
      else r)

/-- The state committed by `update_flashcard` when the request survives to the
commit: the card scalars and, when the payload has an fsrs section, the
wholesale overwrite of the existing fsrs row.  The discussion, final-card and
audio tables are untouched on every committing run (see `updateSections`). -/
def applyCardUpdate (s : FCStore) (fid : Nat) (p : FlashcardUpdate) : FCStore :=
  { s with
      cards := s.cards.map (fun c => if c.id == fid then applyCardScalars c p else c),
      fsrs_rows := overwriteFSRS s fid p.fsrs }

/-- Lines 132-170 of `update_flashcard`, after the card and deck checks.

Two families of payloads never reach a successful commit:
- an fsrs section for a card with no stored fsrs row: line 168 constructs
  `FlashcardFSRS(..., audio_id=payload.fsrs.audio_id)`, but the model declares
  no `audio_id` attribute, so the declarative constructor raises `TypeError`
  in the handler, before the commit;
- a discussion or final_card section: lines 138, 140-141, 148-149 and 151-153
  assign the payload audio dict(s) to the `audio` / `question_audio` /
  `answer_audio` relationship attributes (all declared as `AudioFile`
  relationships in src/app/database.py; the schema makes the audio fields
  required, so the `is not None` guards always produce a dict), and the flush
  at commit rejects a dict that is not a mapped `AudioFile` instance.

In both cases the session closes without a completed commit and nothing
persists.  The `TypeError` fires during the handler (the fsrs block runs
after the discussion/final_card blocks merely staged their assignments), so
it precedes the flush failure. -/
def updateSections (s : FCStore) (fid : Nat) (p : FlashcardUpdate) :
    Except FCError FCStore :=
  if p.fsrs.isSome && (s.fsrs_rows.find? (fun r => r.flashcard_id == fid)).isNone then
    .error .typeError
  else if p.discussion.isSome || p.final_card.isSome then
    .error .unmappedInstanceError
  else
    .ok (applyCardUpdate s fid p)

/-- src/app/routes/flashcards.py `update_flashcard`: fetch the card (404 when
absent), validate a reassigned deck (404 when absent) before committing, then
run the section blocks and the single commit (`updateSections`). -/
def update_flashcard (s : FCStore) (fid : Nat) (p : FlashcardUpdate) :
    Except FCError FCStore :=
  match getCard s fid with
  | none => .error .flashcardNotFound
  | some _ =>
    match p.deck_id with
    | some did =>
      match getDeck s did with
      | none => .error .deckNotFound
      | some _ => updateSections s fid p
    | none => updateSections s fid p

/-! ### Delete (src/app/routes/flashcards.py `delete_flashcard`,
src/app/routes/decks.py `delete_deck`)

`session.delete` on a card cascades over the `all, delete-orphan`
relationships of src/app/database.py to the three one-to-one section rows
(their `flashcard_id` foreign keys also carry `ondelete="CASCADE"`).  The
sections' `audio` / `question_audio` / `answer_audio` relationships, although
declared `cascade="all, delete-orphan", single_parent=True`, also carry
`passive_deletes=True`; the delete path never loads those audio objects, so
the unit of work skips them, and no database-side rule deletes `audio_files`
rows in that foreign-key direction (the FK points from the section row to the
audio row).  The owned `AudioFile` rows therefore survive the delete,
orphaned.  Deleting a deck cascades over its `cards` relationship and
transitively over each card, with the same audio behaviour. -/

def deleteCardCascade (s : FCStore) (cid : Nat) : FCStore :=
  { s with
      cards := s.cards.filter (fun c => !(c.id == cid)),
      discussions := s.discussions.filter (fun r => !(r.flashcard_id == cid)),
      final_cards := s.final_cards.filter (fun r => !(r.flashcard_id == cid)),
      fsrs_rows := s.fsrs_rows.filter (fun r => !(r.flashcard_id == cid)) }

/-- src/app/routes/flashcards.py `delete_flashcard`. -/
def delete_flashcard (s : FCStore) (fid : Nat) : Except FCError FCStore :=
  match getCard s fid with
  | none => .error .flashcardNotFound
  | some _ => .ok (deleteCardCascade s fid)

def deleteDeckCascade (s : FCStore) (did : Nat) : FCStore :=
  let cardIds := (s.cards.filter (fun c => c.deck_id == did)).map (fun c => c.id)
  let s1 := cardIds.foldl deleteCardCascade s
  { s1 with decks := s1.decks.filter (fun k => !(k.id == did)) }

inductive DeckError
  | deckNotFound  -- 404 "Deck not found"
deriving Repr, DecidableEq

/-- src/app/routes/decks.py `update_deck`.  The route takes no current-user
dependency at all: no ownership information reaches it. -/
def update_deck (s : FCStore) (deck_id : Nat) (payload_name : Option String) :
    Except DeckError FCStore :=
  match getDeck s deck_id with
  | none => .error .deckNotFound
  | some _ =>
      .ok { s with decks := s.decks.map (fun k =>
        if k.id == deck_id then
          (match payload_name with
           | some n => { k with name := n }
           | none => k)
        else k) }

/-- src/app/routes/decks.py `delete_deck`.  `current_user` is resolved by the
route dependency but never consulted in the body. -/
def delete_deck (s : FCStore) (deck_id : Nat) (current_user : Nat) :
    Except DeckError FCStore :=
  match getDeck s deck_id with
  | none => .error .deckNotFound
  | some _ => .ok (deleteDeckCascade s deck_id)

/-! ## Lemmas about the token store operations -/

theorem find_refresh_eq_some {h : String → String} {tokens : List RefreshTokenRow}
    {raw : String} {rt : RefreshTokenRow} (hf : find_refresh h tokens raw = some rt) :
    rt ∈ tokens ∧ rt.token_hash = h raw ∧ rt.revoked = false ∧
      ∀ t ∈ tokens, t.token_hash = h raw → t.revoked = false → t = rt := by
  unfold find_refresh at hf
  rcases hfl : tokens.filter (fun t => t.token_hash == h raw && t.revoked == false) with
    _ | ⟨a, _ | ⟨b, l⟩⟩ <;> rw [hfl] at hf
  · exact absurd hf (by simp)
  · have ha : a ∈ tokens.filter (fun t => t.token_hash == h raw && t.revoked == false) := by
      rw [hfl]; exact List.mem_singleton.mpr rfl
    have hmem := List.mem_filter.mp ha
    have hprops : a.token_hash = h raw ∧ a.revoked = false := by
      have := hmem.2
      simp only [Bool.and_eq_true, beq_iff_eq] at this
      exact this
    have hart : a = rt := by simpa using hf
    subst hart
    refine ⟨hmem.1, hprops.1, hprops.2, ?_⟩
    intro t htmem hth htr
    have : t ∈ tokens.filter (fun t => t.token_hash == h raw && t.revoked == false) :=
      List.mem_filter.mpr ⟨htmem, by simp [hth, htr]⟩
    rw [hfl] at this
    exact List.mem_singleton.mp this
  · exact absurd hf (by simp)

theorem find_refresh_eq_none {h : String → String} {tokens : List RefreshTokenRow}
    {raw : String}
    (hno : ∀ t ∈ tokens, t.token_hash = h raw → t.revoked = false → False) :
    find_refresh h tokens raw = none := by
  unfold find_refresh
  have hfl : tokens.filter (fun t => t.token_hash == h raw && t.revoked == false) = [] := by
    rw [List.filter_eq_nil_iff]
    intro t ht
    simp only [Bool.and_eq_true, beq_iff_eq, not_and]
    intro hth htr
    exact hno t ht hth htr
  rw [hfl]

theorem find_refresh_eq_some_of_nodup {h : String → String} {tokens : List RefreshTokenRow}
    {raw : String} {t : RefreshTokenRow}
    (hnd : (tokens.map (fun t => t.token_hash)).Nodup)
    (htm : t ∈ tokens) (hth : t.token_hash = h raw) (htr : t.revoked = false) :
    find_refresh h tokens raw = some t := by
  unfold find_refresh
  have htf : t ∈ tokens.filter (fun t => t.token_hash == h raw && t.revoked == false) :=
    List.mem_filter.mpr ⟨htm, by simp [hth, htr]⟩
  rcases hfl : tokens.filter (fun t => t.token_hash == h raw && t.revoked == false) with
    _ | ⟨a, _ | ⟨b, l⟩⟩
  · rw [hfl] at htf; exact absurd htf (by simp)
  · rw [hfl] at htf
    have hta := List.mem_singleton.mp htf
    rw [hfl, hta]
  · exfalso
    have hsub : (tokens.filter (fun t => t.token_hash == h raw && t.revoked == false)).Sublist
        tokens := List.filter_sublist tokens
    have hmapsub := hsub.map (fun t : RefreshTokenRow => t.token_hash)
    have hndf := hnd.sublist hmapsub
    rw [hfl] at hndf
    have hamem : a ∈ tokens.filter (fun t => t.token_hash == h raw && t.revoked == false) := by
      rw [hfl]; simp
    have hbmem : b ∈ tokens.filter (fun t => t.token_hash == h raw && t.revoked == false) := by
      rw [hfl]; simp
    have hah : a.token_hash = h raw := by
      have := (List.mem_filter.mp hamem).2
      simp only [Bool.and_eq_true, beq_iff_eq] at this
      exact this.1
    have hbh : b.token_hash = h raw := by
      have := (List.mem_filter.mp hbmem).2
      simp only [Bool.and_eq_true, beq_iff_eq] at this
      exact this.1
    simp only [List.map_cons, List.nodup_cons, List.mem_cons, List.mem_map] at hndf
    exact hndf.1 (Or.inl (hah.trans hbh.symm))

theorem revokeById_length (tokens : List RefreshTokenRow) (i : Nat) :
    (revokeById tokens i).length = tokens.length := by
  simp [revokeById]

theorem mem_revokeById_of_ne {tokens : List RefreshTokenRow} {i : Nat} {t : RefreshTokenRow}
    (ht : t ∈ tokens) (hne : t.id ≠ i) : t ∈ revokeById tokens i := by
  unfold revokeById
  have : (if t.id == i then { t with revoked := true } else t) = t := by
    simp [hne]
  exact this ▸ List.mem_map_of_mem _ ht

theorem revoked_mem_revokeById {tokens : List RefreshTokenRow} {t : RefreshTokenRow}
    (ht : t ∈ tokens) : { t with revoked := true } ∈ revokeById tokens t.id := by
  unfold revokeById
  have : (if t.id == t.id then { t with revoked := true } else t) = { t with revoked := true } := by
    simp
  exact this ▸ List.mem_map_of_mem _ ht

theorem mem_revokeById_shape {tokens : List RefreshTokenRow} {i : Nat} {t : RefreshTokenRow}
    (ht : t ∈ revokeById tokens i) :
    ∃ u ∈ tokens, t = u ∨ t = { u with revoked := true } := by
  unfold revokeById at ht
  rcases List.mem_map.mp ht with ⟨u, hu, he⟩
  refine ⟨u, hu, ?_⟩
  by_cases hid : u.id == i
  · right; rw [← he]; simp [hid]
  · left; rw [← he]; simp [hid]

/-- After the rotation commits, no non-revoked row matches the presented raw
token any more, provided the successor's hash differs. -/
theorem find_refresh_rotated {h : String → String} {tokens : List RefreshTokenRow}
    {raw : String} {rt newRt : RefreshTokenRow}
    (hf : find_refresh h tokens raw = some rt)
    (hnew : newRt.token_hash ≠ h raw) :
    find_refresh h (revokeById tokens rt.id ++ [newRt]) raw = none := by
  obtain ⟨hmem, hhash, hrev, huniq⟩ := find_refresh_eq_some hf
  apply find_refresh_eq_none
  intro t ht hth htr
  rcases List.mem_append.mp ht with hl | hr
  · rcases List.mem_map.mp hl with ⟨w, hw, hwe⟩
    split at hwe
    · rw [← hwe] at htr
      simp at htr
    · next hwid =>
        subst hwe
        have hwrt : w = rt := huniq w hw hth htr
        rw [hwrt] at hwid
        simp at hwid
  · have : t = newRt := List.mem_singleton.mp hr
    rw [this] at hth
    exact hnew hth

/-- Revocation alone (logout) also kills the presented raw token. -/
theorem find_refresh_after_revoke {h : String → String} {tokens : List RefreshTokenRow}
    {raw : String} {rt : RefreshTokenRow}
    (hf : find_refresh h tokens raw = some rt) :
    find_refresh h (revokeById tokens rt.id) raw = none := by
  obtain ⟨hmem, hhash, hrev, huniq⟩ := find_refresh_eq_some hf
  apply find_refresh_eq_none
  intro t ht hth htr
  rcases List.mem_map.mp ht with ⟨w, hw, hwe⟩
  split at hwe
  · rw [← hwe] at htr
    simp at htr
  · next hwid =>
      subst hwe
      have hwrt : w = rt := huniq w hw hth htr
      rw [hwrt] at hwid
      simp at hwid

/-- Shape of a successful refresh: the found row, the rotated table, and the
returned raw token. -/
theorem refresh_ok_spec {h : String → String} {backend : Nat → Option String} {now : Int}
    {rand : List Nat} {db : AuthDB} {raw : String} {out : RefreshOk}
    (hok : refresh h backend now rand db (some raw) = .ok out) :
    ∃ rt, find_refresh h db.tokens raw = some rt ∧ ¬ rt.expires_at < now ∧
      db.users.contains rt.user_id = true ∧
      out.db = { users := db.users,
                 tokens := revokeById db.tokens rt.id ++
                   [{ id := db.nextTokenId, user_id := rt.user_id,
                      token_hash := h (token_urlsafe rand), issued_at := now,
                      expires_at := now + refreshLifetimeSeconds, revoked := false }],
                 nextTokenId := db.nextTokenId + 1 } ∧
      out.newRefreshToken = token_urlsafe rand := by
  have hok2 : refreshWithToken h backend now rand db raw = .ok out := hok
  unfold refreshWithToken at hok2
  split at hok2
  · exact absurd hok2 (by simp)
  · next rt hv =>
      obtain ⟨hf, hexp⟩ : find_refresh h db.tokens raw = some rt ∧ ¬ rt.expires_at < now := by
        unfold refreshValidate at hv
        split at hv
        · exact absurd hv (by simp)
        · next rt2 hf2 =>
            split at hv
            · exact absurd hv (by simp)
            · next hexp2 =>
                have : rt2 = rt := by simpa using hv
                subst this
                exact ⟨hf2, hexp2⟩
      split at hok2
      · exact absurd hok2 (by simp)
      · next hu =>
          split at hok2
          · exact absurd hok2 (by simp)
          · next tok hb =>
              simp only [Except.ok.injEq] at hok2
              refine ⟨rt, hf, hexp, by simpa using hu, ?_, ?_⟩
              · rw [← hok2]
              · rw [← hok2]

theorem mem_revokeById_token_hash {tokens : List RefreshTokenRow} {i : Nat}
    {t : RefreshTokenRow} (ht : t ∈ revokeById tokens i) :
    ∃ u ∈ tokens, t.token_hash = u.token_hash := by
  rcases mem_revokeById_shape ht with ⟨u, hu, he | he⟩
  · exact ⟨u, hu, by rw [he]⟩
  · exact ⟨u, hu, by rw [he]⟩

theorem logoutWithToken_shape (h : String → String) (db : AuthDB) (raw : String) :
    (logoutWithToken h db raw).1 = db ∨
      ∃ i, (logoutWithToken h db raw).1 = { db with tokens := revokeById db.tokens i } := by
  unfold logoutWithToken
  rcases hf : find_refresh h db.tokens raw with _ | rt
  · exact Or.inl rfl
  · exact Or.inr ⟨rt.id, rfl⟩

theorem logout_result_shape (h : String → String) (db : AuthDB) (cookie : Option String) :
    (logout h db cookie).1 = db ∨
      ∃ i, (logout h db cookie).1 = { db with tokens := revokeById db.tokens i } := by
  cases cookie with
  | none => exact Or.inl rfl
  | some raw => exact logoutWithToken_shape h db raw

/-! ## Claims about the refresh-token lifecycle -/

/-- C1: a successful refresh finds the unique stored non-revoked row whose
hash matches the presented raw token, revokes exactly that row, inserts
exactly one new non-revoked row for the same store with expiry
now + configured refresh TTL, all within the single state transition that
models the one commit; afterwards presenting the old raw token to refresh
always fails (given the fresh hash differs from the old one, which SHA-256
collision-freeness provides). -/
theorem claim_C1_refresh_rotation (h : String → String) (backend : Nat → Option String)
    (now : Int) (rand : List Nat) (db : AuthDB) (raw : String) (out : RefreshOk)
    (hok : refresh h backend now rand db (some raw) = .ok out) :
    ∃ rt, find_refresh h db.tokens raw = some rt ∧
      rt ∈ db.tokens ∧ rt.token_hash = h raw ∧ rt.revoked = false ∧
      out.db.tokens = revokeById db.tokens rt.id ++
        [{ id := db.nextTokenId, user_id := rt.user_id,
           token_hash := h (token_urlsafe rand), issued_at := now,
           expires_at := now + refreshLifetimeSeconds, revoked := false }] ∧
      out.db.tokens.length = db.tokens.length + 1 ∧
      { rt with revoked := true } ∈ out.db.tokens ∧
      (∀ t ∈ db.tokens, t.id ≠ rt.id → t ∈ out.db.tokens) ∧
      (h (token_urlsafe rand) ≠ h raw →
        ∀ (backend2 : Nat → Option String) (now2 : Int) (rand2 : List Nat),
          refresh h backend2 now2 rand2 out.db (some raw) = .error .invalidToken) := by
  obtain ⟨rt, hf, hexp, hu, hdb, hraw⟩ := refresh_ok_spec hok
  obtain ⟨hmem, hhash, hrev, huniq⟩ := find_refresh_eq_some hf
  refine ⟨rt, hf, hmem, hhash, hrev, ?_, ?_, ?_, ?_, ?_⟩
  · rw [hdb]
  · rw [hdb]
    simp [revokeById]
  · rw [hdb]
    exact List.mem_append.mpr (Or.inl (revoked_mem_revokeById hmem))
  · intro t ht hne
    rw [hdb]
    exact List.mem_append.mpr (Or.inl (mem_revokeById_of_ne ht hne))
  · intro hfresh backend2 now2 rand2
    have hnone : find_refresh h out.db.tokens raw = none := by
      rw [hdb]
      exact find_refresh_rotated hf hfresh
    show refreshWithToken h backend2 now2 rand2 out.db raw = .error .invalidToken
    unfold refreshWithToken refreshValidate
    rw [hnone]

/-- C1 witness: a concrete rotation on a one-token store. -/
theorem claim_C1_witness :
    (refresh (fun s => String.append "#" s) (fun _ => some "tok") 0 []
        ⟨[7], [⟨1, 7, "#x", 0, 5, false⟩], 2⟩ (some "x") =
      .ok ⟨⟨[7], [⟨1, 7, "#x", 0, 5, true⟩, ⟨2, 7, "#", 0, 2592000, false⟩], 3⟩,
           "tok", ""⟩) ∧
    (∃ rt, find_refresh (fun s => String.append "#" s)
        (⟨[7], [⟨1, 7, "#x", 0, 5, false⟩], 2⟩ : AuthDB).tokens "x" = some rt ∧
      rt ∈ (⟨[7], [⟨1, 7, "#x", 0, 5, false⟩], 2⟩ : AuthDB).tokens ∧
      rt.token_hash = (fun s => String.append "#" s) "x" ∧ rt.revoked = false ∧
      (⟨⟨[7], [⟨1, 7, "#x", 0, 5, true⟩, ⟨2, 7, "#", 0, 2592000, false⟩], 3⟩,
          "tok", ""⟩ : RefreshOk).db.tokens =
        revokeById (⟨[7], [⟨1, 7, "#x", 0, 5, false⟩], 2⟩ : AuthDB).tokens rt.id ++
          [⟨2, rt.user_id, (fun s => String.append "#" s) (token_urlsafe []), 0,
            0 + refreshLifetimeSeconds, false⟩] ∧
      (⟨⟨[7], [⟨1, 7, "#x", 0, 5, true⟩, ⟨2, 7, "#", 0, 2592000, false⟩], 3⟩,
          "tok", ""⟩ : RefreshOk).db.tokens.length =
        (⟨[7], [⟨1, 7, "#x", 0, 5, false⟩], 2⟩ : AuthDB).tokens.length + 1 ∧
      { rt with revoked := true } ∈
        (⟨⟨[7], [⟨1, 7, "#x", 0, 5, true⟩, ⟨2, 7, "#", 0, 2592000, false⟩], 3⟩,
            "tok", ""⟩ : RefreshOk).db.tokens ∧
      (∀ t ∈ (⟨[7], [⟨1, 7, "#x", 0, 5, false⟩], 2⟩ : AuthDB).tokens, t.id ≠ rt.id →
        t ∈ (⟨⟨[7], [⟨1, 7, "#x", 0, 5, true⟩, ⟨2, 7, "#", 0, 2592000, false⟩], 3⟩,
              "tok", ""⟩ : RefreshOk).db.tokens) ∧
      ((fun s => String.append "#" s) (token_urlsafe []) ≠
          (fun s => String.append "#" s) "x" →
        ∀ (backend2 : Nat → Option String) (now2 : Int) (rand2 : List Nat),
          refresh (fun s => String.append "#" s) backend2 now2 rand2
            (⟨⟨[7], [⟨1, 7, "#x", 0, 5, true⟩, ⟨2, 7, "#", 0, 2592000, false⟩], 3⟩,
              "tok", ""⟩ : RefreshOk).db (some "x") =
            .error .invalidToken)) :=
  ⟨rfl,
   claim_C1_refresh_rotation (fun s => String.append "#" s) (fun _ => some "tok") 0 []
     ⟨[7], [⟨1, 7, "#x", 0, 5, false⟩], 2⟩ "x"
     ⟨⟨[7], [⟨1, 7, "#x", 0, 5, true⟩, ⟨2, 7, "#", 0, 2592000, false⟩], 3⟩,
      "tok", ""⟩ rfl⟩

/-- C2 (amended): refresh accepts a presented token iff a stored row with the
matching hash exists, is not revoked, and has expires_at at least now (the
source rejects only `expires_at < now`, so a row expiring exactly now is
accepted); the lookup-by-hash-and-not-revoked check runs first and fails with
the invalid-token error, then the expiry check fails with the distinct
expired-token error; absent and revoked tokens are indistinguishable (both
fall into the no-matching-row case, with the same error). -/
theorem claim_C2_validation_order (h : String → String) (now : Int)
    (tokens : List RefreshTokenRow) (raw : String)
    (hnd : (tokens.map (fun t => t.token_hash)).Nodup) :
    ((refreshValidate h now tokens raw).isOk = true ↔
      ∃ t ∈ tokens, t.token_hash = h raw ∧ t.revoked = false ∧ now ≤ t.expires_at) ∧
    ((¬ ∃ t ∈ tokens, t.token_hash = h raw ∧ t.revoked = false) →
      refreshValidate h now tokens raw = .error .invalidToken) ∧
    (∀ rt, find_refresh h tokens raw = some rt → rt.expires_at < now →
      refreshValidate h now tokens raw = .error .expiredToken) ∧
    RefreshError.expiredToken ≠ RefreshError.invalidToken := by
  refine ⟨⟨?_, ?_⟩, ?_, ?_, by decide⟩
  · intro hok
    unfold refreshValidate at hok
    split at hok
    · simp [Except.isOk, Except.toBool] at hok
    · next rt hf =>
        split at hok
        · simp [Except.isOk, Except.toBool] at hok
        · next hexp =>
            obtain ⟨hmem, hhash, hrev, _⟩ := find_refresh_eq_some hf
            exact ⟨rt, hmem, hhash, hrev, by omega⟩
  · rintro ⟨t, htm, hth, htr, hle⟩
    have hf := find_refresh_eq_some_of_nodup hnd htm hth htr
    have hnl : ¬ t.expires_at < now := by omega
    unfold refreshValidate
    rw [hf]
    simp [hnl, Except.isOk, Except.toBool]
  · intro hno
    have hnone : find_refresh h tokens raw = none := by
      apply find_refresh_eq_none
      intro t ht hth htr
      exact hno ⟨t, ht, hth, htr⟩
    unfold refreshValidate
    rw [hnone]
  · intro rt hf hexp
    unfold refreshValidate
    rw [hf]
    simp [hexp]

/-- C2 witness: a concrete live token accepted with expiry in the future, on a
store whose hashes are distinct. -/
theorem claim_C2_witness :
    ((([⟨1, 7, "#x", 0, 5, false⟩] : List RefreshTokenRow).map
        (fun t => t.token_hash)).Nodup) ∧
    (((refreshValidate (fun s => String.append "#" s) 3
          [⟨1, 7, "#x", 0, 5, false⟩] "x").isOk = true ↔
      ∃ t ∈ ([⟨1, 7, "#x", 0, 5, false⟩] : List RefreshTokenRow),
        t.token_hash = (fun s => String.append "#" s) "x" ∧ t.revoked = false ∧
        (3 : Int) ≤ t.expires_at) ∧
    ((¬ ∃ t ∈ ([⟨1, 7, "#x", 0, 5, false⟩] : List RefreshTokenRow),
        t.token_hash = (fun s => String.append "#" s) "x" ∧ t.revoked = false) →
      refreshValidate (fun s => String.append "#" s) 3
        [⟨1, 7, "#x", 0, 5, false⟩] "x" = .error .invalidToken) ∧
    (∀ rt, find_refresh (fun s => String.append "#" s)
        [⟨1, 7, "#x", 0, 5, false⟩] "x" = some rt → rt.expires_at < 3 →
      refreshValidate (fun s => String.append "#" s) 3
        [⟨1, 7, "#x", 0, 5, false⟩] "x" = .error .expiredToken) ∧
    RefreshError.expiredToken ≠ RefreshError.invalidToken) :=
  ⟨by decide,
   claim_C2_validation_order (fun s => String.append "#" s) 3
     [⟨1, 7, "#x", 0, 5, false⟩] "x" (by decide)⟩

/-- C2 counterexample: a stored token with `expires_at` equal to now is
accepted by the code, although the claim's validity condition
`expires_at > now` rejects it, so acceptance is not equivalent to the claimed
condition. -/
theorem claim_C2_counterexample :
    (refreshValidate (fun _ => "H") 100 [⟨1, 7, "H", 0, 100, false⟩] "x").isOk = true ∧
    ¬ (∃ t ∈ ([⟨1, 7, "H", 0, 100, false⟩] : List RefreshTokenRow),
        t.token_hash = (fun _ : String => "H") "x" ∧ t.revoked = false ∧
        t.expires_at > 100) := by
  constructor
  · rfl
  · decide

/-- Invariant: every row of a reachable token store carries only the digest of
a raw token minted from 64 random bytes. -/
theorem token_hash_invariant (h : String → String) (db : AuthDB)
    (hr : AuthReachable h db) :
    ∀ t ∈ db.tokens, ∃ rand : List Nat, rand.length = 64 ∧ AllBytes rand ∧
      t.token_hash = h (token_urlsafe rand) := by
  induction hr with
  | init users nextId => intro t ht; simp at ht
  | step db db2 hreach hstep ih =>
      cases hstep with
      | login now rand userId db hrand hbytes =>
          intro t ht
          unfold on_after_login at ht
          simp only [List.mem_append, List.mem_singleton] at ht
          rcases ht with ht | ht
          · exact ih t ht
          · exact ⟨rand, hrand, hbytes, by rw [ht]⟩
      | refreshOk backend now rand db cookie out hrand hbytes hok =>
          cases cookie with
          | none => exact absurd hok (by simp [refresh])
          | some raw =>
              obtain ⟨rt, hf, _, _, hdb, _⟩ := refresh_ok_spec hok
              intro t ht
              rw [hdb] at ht
              simp only [List.mem_append, List.mem_singleton] at ht
              rcases ht with ht | ht
              · obtain ⟨u, hu, hhu⟩ := mem_revokeById_token_hash ht
                obtain ⟨rand2, hl2, hb2, hh2⟩ := ih u hu
                exact ⟨rand2, hl2, hb2, by rw [hhu, hh2]⟩
              · exact ⟨rand, hrand, hbytes, by rw [ht]⟩
      | logoutStep db cookie =>
          intro t ht
          rcases logout_result_shape h db cookie with he | ⟨i, he⟩
          · rw [he] at ht
            exact ih t ht
          · rw [he] at ht
            obtain ⟨u, hu, hhu⟩ := mem_revokeById_token_hash ht
            obtain ⟨rand2, hl2, hb2, hh2⟩ := ih u hu
            exact ⟨rand2, hl2, hb2, by rw [hhu, hh2]⟩

/-- C6: on every token-creating path (login and refresh rotation) the raw
token is minted from 64 bytes (512 bits, at least the claimed 256) of
randomness in an entropy-preserving URL-safe encoding, and every row of every
reachable token store holds only the digest of such a raw token: the store has
no field holding a raw secret. -/
theorem claim_C6_only_hashes_stored (h : String → String) (db : AuthDB)
    (hr : AuthReachable h db) :
    (∀ t ∈ db.tokens, ∃ rand : List Nat, rand.length = 64 ∧ AllBytes rand ∧
        t.token_hash = h (token_urlsafe rand) ∧ 256 ≤ 8 * rand.length) ∧
    (∀ r1 r2 : List Nat, AllBytes r1 → AllBytes r2 →
        token_urlsafe r1 = token_urlsafe r2 → r1 = r2) ∧
    (∀ rand : List Nat, AllBytes rand →
        ∀ c ∈ (token_urlsafe rand).data, c ∈ b64urlAlphabet) := by
  refine ⟨?_, token_urlsafe_inj, token_urlsafe_urlsafe⟩
  intro t ht
  obtain ⟨rand, hl, hb, hh⟩ := token_hash_invariant h db hr t ht
  exact ⟨rand, hl, hb, hh, by omega⟩

/-- C6 witness: the store reached by one login from an empty table. -/
theorem claim_C6_witness :
    AuthReachable (fun s => String.append "#" s)
      (on_after_login (fun s => String.append "#" s) 0 (List.replicate 64 0) 1
        ⟨[1], [], 0⟩).1 ∧
    ((∀ t ∈ (on_after_login (fun s => String.append "#" s) 0 (List.replicate 64 0) 1
          ⟨[1], [], 0⟩).1.tokens,
        ∃ rand : List Nat, rand.length = 64 ∧ AllBytes rand ∧
          t.token_hash = (fun s => String.append "#" s) (token_urlsafe rand) ∧
          256 ≤ 8 * rand.length) ∧
      (∀ r1 r2 : List Nat, AllBytes r1 → AllBytes r2 →
          token_urlsafe r1 = token_urlsafe r2 → r1 = r2) ∧
      (∀ rand : List Nat, AllBytes rand →
          ∀ c ∈ (token_urlsafe rand).data, c ∈ b64urlAlphabet)) := by
  have hbytes : AllBytes (List.replicate 64 0) := by
    intro x hx
    simp only [List.mem_replicate] at hx
    omega
  have hreach : AuthReachable (fun s => String.append "#" s)
      (on_after_login (fun s => String.append "#" s) 0 (List.replicate 64 0) 1
        ⟨[1], [], 0⟩).1 :=
    AuthReachable.step _ _ (AuthReachable.init [1] 0)
      (AuthStep.login 0 (List.replicate 64 0) 1 _ (by simp) hbytes)
  exact ⟨hreach, claim_C6_only_hashes_stored _ _ hreach⟩

/-- C7: logout is total (the source has no failure path), always clears the
cookie, is a no-op without a token, leaves the store unchanged when no
matching non-revoked row exists (absent and already-revoked tokens alike),
revokes exactly the matching row when one exists, and is idempotent: a second
logout with the same token changes nothing. -/
theorem claim_C7_logout_idempotent (h : String → String) (db : AuthDB)
    (cookie : Option String) :
    (logout h db cookie).2 = true ∧
    (cookie = none → (logout h db cookie).1 = db) ∧
    (∀ raw, cookie = some raw →
      (¬ ∃ t ∈ db.tokens, t.token_hash = h raw ∧ t.revoked = false) →
      (logout h db cookie).1 = db) ∧
    (∀ raw rt, cookie = some raw → find_refresh h db.tokens raw = some rt →
      (logout h db cookie).1 = { db with tokens := revokeById db.tokens rt.id } ∧
      ∀ t ∈ db.tokens, t.id ≠ rt.id → t ∈ (logout h db cookie).1.tokens) ∧
    (∀ raw, logout h (logout h db (some raw)).1 (some raw) =
      ((logout h db (some raw)).1, true)) := by
  refine ⟨?_, ?_, ?_, ?_, ?_⟩
  · cases cookie with
    | none => rfl
    | some raw =>
        show (logoutWithToken h db raw).2 = true
        unfold logoutWithToken
        rcases hf : find_refresh h db.tokens raw with _ | rt <;> rfl
  · intro hc; rw [hc]; rfl
  · intro raw hc hno
    rw [hc]
    show (logoutWithToken h db raw).1 = db
    have hnone : find_refresh h db.tokens raw = none := by
      apply find_refresh_eq_none
      intro t ht hth htr
      exact hno ⟨t, ht, hth, htr⟩
    unfold logoutWithToken
    rw [hnone]
  · intro raw rt hc hf
    rw [hc]
    have he : (logoutWithToken h db raw).1 =
        { db with tokens := revokeById db.tokens rt.id } := by
      unfold logoutWithToken
      rw [hf]
    refine ⟨he, ?_⟩
    intro t ht hne
    show t ∈ (logoutWithToken h db raw).1.tokens
    rw [he]
    exact mem_revokeById_of_ne ht hne
  · intro raw
    show logout h (logoutWithToken h db raw).1 (some raw) = ((logoutWithToken h db raw).1, true)
    unfold logoutWithToken
    rcases hf : find_refresh h db.tokens raw with _ | rt
    · show logoutWithToken h db raw = (db, true)
      unfold logoutWithToken
      rw [hf]
    · show logoutWithToken h { db with tokens := revokeById db.tokens rt.id } raw =
        ({ db with tokens := revokeById db.tokens rt.id }, true)
      have hnone := find_refresh_after_revoke hf
      unfold logoutWithToken
      rw [show ({ db with tokens := revokeById db.tokens rt.id } : AuthDB).tokens =
        revokeById db.tokens rt.id from rfl, hnone]

/-- C7 witness: a concrete logout of a live token, including the second,
no-op logout. -/
theorem claim_C7_witness :
    ((logout (fun s => String.append "#" s) ⟨[7], [⟨1, 7, "#x", 0, 5, false⟩], 2⟩
        (some "x")).2 = true ∧
    (some "x" = none →
      (logout (fun s => String.append "#" s) ⟨[7], [⟨1, 7, "#x", 0, 5, false⟩], 2⟩
        (some "x")).1 = ⟨[7], [⟨1, 7, "#x", 0, 5, false⟩], 2⟩) ∧
    (∀ raw, some "x" = some raw →
      (¬ ∃ t ∈ (⟨[7], [⟨1, 7, "#x", 0, 5, false⟩], 2⟩ : AuthDB).tokens,
        t.token_hash = (fun s => String.append "#" s) raw ∧ t.revoked = false) →
      (logout (fun s => String.append "#" s) ⟨[7], [⟨1, 7, "#x", 0, 5, false⟩], 2⟩
        (some "x")).1 = ⟨[7], [⟨1, 7, "#x", 0, 5, false⟩], 2⟩) ∧
    (∀ raw rt, some "x" = some raw →
      find_refresh (fun s => String.append "#" s)
        (⟨[7], [⟨1, 7, "#x", 0, 5, false⟩], 2⟩ : AuthDB).tokens raw = some rt →
      (logout (fun s => String.append "#" s) ⟨[7], [⟨1, 7, "#x", 0, 5, false⟩], 2⟩
          (some "x")).1 =
        { (⟨[7], [⟨1, 7, "#x", 0, 5, false⟩], 2⟩ : AuthDB) with
            tokens := revokeById (⟨[7], [⟨1, 7, "#x", 0, 5, false⟩], 2⟩ :
              AuthDB).tokens rt.id } ∧
      ∀ t ∈ (⟨[7], [⟨1, 7, "#x", 0, 5, false⟩], 2⟩ : AuthDB).tokens, t.id ≠ rt.id →
        t ∈ (logout (fun s => String.append "#" s)
          ⟨[7], [⟨1, 7, "#x", 0, 5, false⟩], 2⟩ (some "x")).1.tokens) ∧
    (∀ raw, logout (fun s => String.append "#" s)
        (logout (fun s => String.append "#" s) ⟨[7], [⟨1, 7, "#x", 0, 5, false⟩], 2⟩
          (some raw)).1 (some raw) =
      ((logout (fun s => String.append "#" s) ⟨[7], [⟨1, 7, "#x", 0, 5, false⟩], 2⟩
          (some raw)).1, true))) :=
  claim_C7_logout_idempotent (fun s => String.append "#" s)
    ⟨[7], [⟨1, 7, "#x", 0, 5, false⟩], 2⟩ (some "x")

/-- C10: the row inserted by a successful refresh belongs to the same user as
the presented (now revoked) row. -/
theorem claim_C10_rotation_preserves_owner (h : String → String)
    (backend : Nat → Option String) (now : Int) (rand : List Nat) (db : AuthDB)
    (raw : String) (out : RefreshOk) (rt : RefreshTokenRow)
    (hok : refresh h backend now rand db (some raw) = .ok out)
    (hrt : find_refresh h db.tokens raw = some rt) :
    ∃ newRt : RefreshTokenRow,
      out.db.tokens = revokeById db.tokens rt.id ++ [newRt] ∧
      newRt.user_id = rt.user_id ∧ newRt.revoked = false := by
  obtain ⟨rt2, hf2, _, _, hdb, _⟩ := refresh_ok_spec hok
  have heq : rt = rt2 := by
    rw [hrt] at hf2
    simpa using hf2
  subst heq
  exact ⟨{ id := db.nextTokenId, user_id := rt.user_id,
           token_hash := h (token_urlsafe rand), issued_at := now,
           expires_at := now + refreshLifetimeSeconds, revoked := false },
         by rw [hdb], rfl, rfl⟩

/-- C10 witness: the concrete rotation of `claim_C1_witness`, checked for
ownership preservation. -/
theorem claim_C10_witness :
    ∃ newRt : RefreshTokenRow,
      (⟨⟨[7], [⟨1, 7, "#x", 0, 5, true⟩, ⟨2, 7, "#", 0, 2592000, false⟩], 3⟩,
          "tok", ""⟩ : RefreshOk).db.tokens =
        revokeById (⟨[7], [⟨1, 7, "#x", 0, 5, false⟩], 2⟩ : AuthDB).tokens
          (⟨1, 7, "#x", 0, 5, false⟩ : RefreshTokenRow).id ++ [newRt] ∧
      newRt.user_id = (⟨1, 7, "#x", 0, 5, false⟩ : RefreshTokenRow).user_id ∧
      newRt.revoked = false :=
  claim_C10_rotation_preserves_owner (fun s => String.append "#" s)
    (fun _ => some "tok") 0 [] ⟨[7], [⟨1, 7, "#x", 0, 5, false⟩], 2⟩ "x"
    ⟨⟨[7], [⟨1, 7, "#x", 0, 5, true⟩, ⟨2, 7, "#", 0, 2592000, false⟩], 3⟩, "tok", ""⟩
    ⟨1, 7, "#x", 0, 5, false⟩ rfl rfl

/-! ## Claims about the flashcard aggregate -/

/-- C3 (code evaluation at the failing input): the mutation routes perform no
ownership check at all — `update_deck` receives no current user and
`delete_deck` ignores the one it receives — so a requester (user 2) who does
not own a deck (owner 1) successfully renames and deletes it; no
forbidden-style error exists on these paths. -/
theorem claim_C3_no_ownership_check :
    (2 : Nat) ≠ (1 : Nat) ∧
    update_deck ⟨[⟨1, "alpha", 1⟩], [], [], [], [], [], 0, 0⟩ 1 (some "renamed") =
      .ok ⟨[⟨1, "renamed", 1⟩], [], [], [], [], [], 0, 0⟩ ∧
    delete_deck ⟨[⟨1, "alpha", 1⟩], [], [], [], [], [], 0, 0⟩ 1 2 =
      .ok ⟨[], [], [], [], [], [], 0, 0⟩ := by
  refine ⟨by decide, rfl, rfl⟩

theorem updateSections_ok_spec {s : FCStore} {fid : Nat} {p : FlashcardUpdate}
    {s2 : FCStore} (hok : updateSections s fid p = .ok s2) :
    (p.fsrs.isSome && (s.fsrs_rows.find? (fun r => r.flashcard_id == fid)).isNone)
      = false ∧
    p.discussion = none ∧ p.final_card = none ∧ s2 = applyCardUpdate s fid p := by
  unfold updateSections at hok
  split at hok
  · exact absurd hok (by simp)
  · next h1 =>
    split at hok
    · exact absurd hok (by simp)
    · next h2 =>
      have hinj : s2 = applyCardUpdate s fid p := by
        simp only [Except.ok.injEq] at hok
        exact hok.symm
      rcases hd : p.discussion with _ | d
      · rcases hf : p.final_card with _ | f
        · exact ⟨by simpa using h1, rfl, rfl, hinj⟩
        · exact absurd (by simp [hf]) h2
      · exact absurd (by simp [hd]) h2

theorem update_flashcard_ok_spec {s : FCStore} {fid : Nat} {p : FlashcardUpdate}
    {s2 : FCStore} (hok : update_flashcard s fid p = .ok s2) :
    (p.fsrs.isSome && (s.fsrs_rows.find? (fun r => r.flashcard_id == fid)).isNone)
      = false ∧
    p.discussion = none ∧ p.final_card = none ∧ s2 = applyCardUpdate s fid p := by
  unfold update_flashcard at hok
  split at hok
  · exact absurd hok (by simp)
  · split at hok
    · split at hok
      · exact absurd hok (by simp)
      · exact updateSections_ok_spec hok
    · exact updateSections_ok_spec hok

/-- C5 (amended): a card update commits only when the payload carries no
discussion and no final_card section and, if it carries an fsrs section, the
card already has a stored fsrs row.  On a committing update the discussion,
final-card and audio tables are untouched (in particular a stage-only update
changes no section row), fsrs rows of other cards are preserved, an absent
fsrs section leaves the fsrs table unchanged, and a supplied fsrs section
overwrites the existing row wholesale from the payload — every scalar column
is reassigned, so optional fields omitted from the payload become none rather
than retaining their prior values, and the due is stored timezone-naive.  A
payload with a discussion or final_card section never commits (the route
assigns the nested audio payload dicts to relationship attributes and the
flush at commit rejects them), and an fsrs section for a card with no stored
fsrs row never commits either (the absent-row constructor call raises
`TypeError` on its undeclared `audio_id` keyword); in both cases nothing
persists. -/
theorem claim_C5_update_sections (s : FCStore) (fid : Nat) (p : FlashcardUpdate) :
    (∀ s2, update_flashcard s fid p = .ok s2 →
      p.discussion = none ∧ p.final_card = none ∧
      s2.discussions = s.discussions ∧
      s2.final_cards = s.final_cards ∧
      s2.audio_files = s.audio_files ∧
      (p.fsrs = none → s2.fsrs_rows = s.fsrs_rows) ∧
      (∀ r ∈ s.fsrs_rows, r.flashcard_id ≠ fid → r ∈ s2.fsrs_rows) ∧
      (∀ f, p.fsrs = some f →
        (∃ r0 ∈ s.fsrs_rows, r0.flashcard_id = fid) ∧
        (∀ r ∈ s.fsrs_rows, r.flashcard_id = fid →
          (⟨fid, f.due.replaceTzNone, f.stability, f.difficulty, f.elapsed_days,
            f.scheduled_days, f.reps, f.lapses, f.state, f.learning_steps⟩ :
            FSRSRow) ∈ s2.fsrs_rows))) ∧
    ((p.discussion ≠ none ∨ p.final_card ≠ none) →
      ∀ s2, update_flashcard s fid p ≠ .ok s2) ∧
    (∀ f, p.fsrs = some f →
      s.fsrs_rows.find? (fun r => r.flashcard_id == fid) = none →
      ∀ s2, update_flashcard s fid p ≠ .ok s2) := by
  refine ⟨?_, ?_, ?_⟩
  · intro s2 hok
    obtain ⟨hg, hd, hf, hs2⟩ := update_flashcard_ok_spec hok
    subst hs2
    refine ⟨hd, hf, rfl, rfl, rfl, ?_, ?_, ?_⟩
    · intro hn
      show overwriteFSRS s fid p.fsrs = s.fsrs_rows
      rw [hn]
      rfl
    · intro r hr hne
      show r ∈ overwriteFSRS s fid p.fsrs
      rcases hpf : p.fsrs with _ | f
      · exact hr
      · simp only [overwriteFSRS]
        refine List.mem_map.mpr ⟨r, hr, ?_⟩
        simp [hne]
    · intro f hpf
      rcases hfind : s.fsrs_rows.find? (fun r => r.flashcard_id == fid) with _ | r0
      · rw [hpf, hfind] at hg
        simp at hg
      · refine ⟨⟨r0, List.mem_of_find?_eq_some hfind, ?_⟩, ?_⟩
        · simpa using List.find?_some hfind
        · intro r hr hfid
          show _ ∈ overwriteFSRS s fid p.fsrs
          rw [hpf]
          simp only [overwriteFSRS]
          refine List.mem_map.mpr ⟨r, hr, ?_⟩
          rw [if_pos (by simpa using hfid)]
          cases r
          simp_all
  · intro hne s2 hok
    obtain ⟨_, hd, hf, _⟩ := update_flashcard_ok_spec hok
    rcases hne with hne | hne
    · exact hne hd
    · exact hne hf
  · intro f hpf hfind s2 hok
    obtain ⟨hg, _, _, _⟩ := update_flashcard_ok_spec hok
    rw [hpf, hfind] at hg
    simp at hg

/-- C5 counterexample: the stored fsrs row has `stability = some 5`; an update
supplying the fsrs section but omitting `stability` (so it defaults to none)
overwrites the stored value with none instead of retaining it. -/
theorem claim_C5_counterexample :
    update_flashcard
        ⟨[⟨1, "d", 1⟩], [⟨1, 1, 0⟩], [], [],
         [⟨1, ⟨5, none⟩, some 5, none, none, none, none, none, none, none⟩], [], 2, 0⟩ 1
        ⟨none, none, none, none,
         some ⟨⟨9, none⟩, none, none, none, none, none, none, none, none, none⟩⟩ =
      .ok ⟨[⟨1, "d", 1⟩], [⟨1, 1, 0⟩], [], [],
           [⟨1, ⟨9, none⟩, none, none, none, none, none, none, none, none⟩], [], 2, 0⟩ ∧
    (⟨1, ⟨5, none⟩, some 5, none, none, none, none, none, none, none⟩ : FSRSRow) ∈
      (⟨[⟨1, "d", 1⟩], [⟨1, 1, 0⟩], [], [],
        [⟨1, ⟨5, none⟩, some 5, none, none, none, none, none, none, none⟩], [], 2,
        0⟩ : FCStore).fsrs_rows ∧
    ¬ (∃ r ∈ ([⟨1, ⟨9, none⟩, none, none, none, none, none, none, none, none⟩] :
        List FSRSRow), r.stability = some 5) := by
  refine ⟨rfl, by decide, by decide⟩

/-- C5 witness: a stage-only update on a store holding an fsrs row commits
and leaves the discussion and fsrs tables unchanged on a concrete store. -/
theorem claim_C5_witness :
    update_flashcard
        ⟨[⟨1, "d", 1⟩], [⟨1, 1, 0⟩], [], [],
         [⟨1, ⟨5, none⟩, some 5, none, none, none, none, none, none, none⟩], [], 2, 0⟩ 1
        ⟨none, some 3, none, none, none⟩ =
      .ok ⟨[⟨1, "d", 1⟩], [⟨1, 1, 3⟩], [], [],
           [⟨1, ⟨5, none⟩, some 5, none, none, none, none, none, none, none⟩], [], 2,
           0⟩ ∧
    (⟨[⟨1, "d", 1⟩], [⟨1, 1, 3⟩], [], [],
      [⟨1, ⟨5, none⟩, some 5, none, none, none, none, none, none, none⟩], [], 2,
      0⟩ : FCStore).discussions =
    (⟨[⟨1, "d", 1⟩], [⟨1, 1, 0⟩], [], [],
      [⟨1, ⟨5, none⟩, some 5, none, none, none, none, none, none, none⟩], [], 2,
      0⟩ : FCStore).discussions ∧
    (⟨[⟨1, "d", 1⟩], [⟨1, 1, 3⟩], [], [],
      [⟨1, ⟨5, none⟩, some 5, none, none, none, none, none, none, none⟩], [], 2,
      0⟩ : FCStore).fsrs_rows =
    (⟨[⟨1, "d", 1⟩], [⟨1, 1, 0⟩], [], [],
      [⟨1, ⟨5, none⟩, some 5, none, none, none, none, none, none, none⟩], [], 2,
      0⟩ : FCStore).fsrs_rows := by
  have hok : update_flashcard
      ⟨[⟨1, "d", 1⟩], [⟨1, 1, 0⟩], [], [],
       [⟨1, ⟨5, none⟩, some 5, none, none, none, none, none, none, none⟩], [], 2, 0⟩ 1
      ⟨none, some 3, none, none, none⟩ =
    .ok ⟨[⟨1, "d", 1⟩], [⟨1, 1, 3⟩], [], [],
         [⟨1, ⟨5, none⟩, some 5, none, none, none, none, none, none, none⟩], [], 2,
         0⟩ := rfl
  have hc := (claim_C5_update_sections
    ⟨[⟨1, "d", 1⟩], [⟨1, 1, 0⟩], [], [],
     [⟨1, ⟨5, none⟩, some 5, none, none, none, none, none, none, none⟩], [], 2, 0⟩ 1
    ⟨none, some 3, none, none, none⟩).1
    ⟨[⟨1, "d", 1⟩], [⟨1, 1, 3⟩], [], [],
     [⟨1, ⟨5, none⟩, some 5, none, none, none, none, none, none, none⟩], [], 2, 0⟩ hok
  exact ⟨hok, hc.2.2.1, hc.2.2.2.2.2.1 rfl⟩

theorem createDiscussion_spec {io : Nat → Bool} {cardId : Nat}
    {pd : Option DiscussionSchema} {s : FCStore} {k : Nat} {s2 : FCStore} {k2 : Nat}
    (hok : createDiscussion io cardId pd s k = .ok (s2, k2)) :
    s2.decks = s.decks ∧ s2.cards = s.cards ∧ s2.next_card_id = s.next_card_id ∧
    s2.final_cards = s.final_cards ∧ s2.fsrs_rows = s.fsrs_rows ∧
    ((pd = none ∧ s2 = s ∧ k2 = k) ∨
     (∃ d, pd = some d ∧
       s2.audio_files = s.audio_files ++
         [⟨s.next_audio_id, d.audio.filename, d.audio.timing_filename⟩] ∧
       s2.discussions = s.discussions ++
         [⟨cardId, d.ssml_text, d.text, some s.next_audio_id⟩] ∧
       s2.next_audio_id = s.next_audio_id + 1 ∧ k2 = k + 1)) := by
  cases pd with
  | none =>
      simp only [createDiscussion, Except.ok.injEq, Prod.mk.injEq] at hok
      obtain ⟨hs, hk⟩ := hok
      subst hs
      subst hk
      exact ⟨rfl, rfl, rfl, rfl, rfl, Or.inl ⟨rfl, rfl, rfl⟩⟩
  | some d =>
      simp only [createDiscussion] at hok
      split at hok
      · exact absurd hok (by simp)
      · simp only [Except.ok.injEq, Prod.mk.injEq] at hok
        obtain ⟨hs, hk⟩ := hok
        subst hs
        subst hk
        exact ⟨rfl, rfl, rfl, rfl, rfl, Or.inr ⟨d, rfl, rfl, rfl, rfl, rfl⟩⟩

theorem createFinalCard_spec {io : Nat → Bool} {cardId : Nat}
    {pf : Option FinalCardSchema} {s : FCStore} {k : Nat} {s2 : FCStore} {k2 : Nat}
    (hok : createFinalCard io cardId pf s k = .ok (s2, k2)) :
    s2.decks = s.decks ∧ s2.cards = s.cards ∧ s2.next_card_id = s.next_card_id ∧
    s2.discussions = s.discussions ∧ s2.fsrs_rows = s.fsrs_rows ∧
    ((pf = none ∧ s2 = s ∧ k2 = k) ∨
     (∃ f, pf = some f ∧
       s2.audio_files = s.audio_files ++
         [⟨s.next_audio_id, f.question_audio.filename,
           f.question_audio.timing_filename⟩,
          ⟨s.next_audio_id + 1, f.answer_audio.filename,
           f.answer_audio.timing_filename⟩] ∧
       s2.final_cards = s.final_cards ++
         [⟨cardId, f.front, f.back, some s.next_audio_id,
           some (s.next_audio_id + 1)⟩] ∧
       s2.next_audio_id = s.next_audio_id + 2 ∧ k2 = k + 2)) := by
  cases pf with
  | none =>
      simp only [createFinalCard, Except.ok.injEq, Prod.mk.injEq] at hok
      obtain ⟨hs, hk⟩ := hok
      subst hs
      subst hk
      exact ⟨rfl, rfl, rfl, rfl, rfl, Or.inl ⟨rfl, rfl, rfl⟩⟩
  | some f =>
      simp only [createFinalCard] at hok
      split at hok
      · exact absurd hok (by simp)
      · split at hok
        · exact absurd hok (by simp)
        · simp only [Except.ok.injEq, Prod.mk.injEq] at hok
          obtain ⟨hs, hk⟩ := hok
          subst hs
          subst hk
          refine ⟨rfl, rfl, rfl, rfl, rfl, Or.inr ⟨f, rfl, ?_, rfl, ?_, rfl⟩⟩
          · simp
          · simp

theorem createFSRS_decks (cardId : Nat) (pf : Option FSRSSchema) (s : FCStore) :
    (createFSRS cardId pf s).decks = s.decks := by
  cases pf <;> rfl

theorem createFSRS_cards (cardId : Nat) (pf : Option FSRSSchema) (s : FCStore) :
    (createFSRS cardId pf s).cards = s.cards := by
  cases pf <;> rfl

theorem createFSRS_discussions (cardId : Nat) (pf : Option FSRSSchema) (s : FCStore) :
    (createFSRS cardId pf s).discussions = s.discussions := by
  cases pf <;> rfl

theorem createFSRS_final_cards (cardId : Nat) (pf : Option FSRSSchema) (s : FCStore) :
    (createFSRS cardId pf s).final_cards = s.final_cards := by
  cases pf <;> rfl

theorem createFSRS_audio (cardId : Nat) (pf : Option FSRSSchema) (s : FCStore) :
    (createFSRS cardId pf s).audio_files = s.audio_files := by
  cases pf <;> rfl

theorem createFSRS_rows_none (cardId : Nat) (s : FCStore) :
    (createFSRS cardId none s).fsrs_rows = s.fsrs_rows := rfl

theorem createFSRS_rows_some (cardId : Nat) (f : FSRSSchema) (s : FCStore) :
    (createFSRS cardId (some f) s).fsrs_rows = s.fsrs_rows ++
      [⟨cardId, f.due.replaceTzNone, f.stability, f.difficulty, f.elapsed_days,
        f.scheduled_days, f.reps, f.lapses, f.state, f.learning_steps⟩] := rfl

theorem create_flashcard_ok_spec {io : Nat → Bool} {s : FCStore} {p : FlashcardCreate}
    {s2 : FCStore} (hok : create_flashcard io s p = .ok s2) :
    ∃ did deck sA kA sB kB,
      p.deck_id = some did ∧ getDeck s did = some deck ∧
      createDiscussion io s.next_card_id p.discussion
        { s with cards := s.cards ++ [⟨s.next_card_id, did, p.stage⟩],
                 next_card_id := s.next_card_id + 1 } 1 = .ok (sA, kA) ∧
      createFinalCard io s.next_card_id p.final_card sA kA = .ok (sB, kB) ∧
      s2 = createFSRS s.next_card_id p.fsrs sB := by
  simp only [create_flashcard] at hok
  split at hok
  · exact absurd hok (by simp)
  · next did hd =>
      split at hok
      · exact absurd hok (by simp)
      · next deck hdeck =>
          split at hok
          · exact absurd hok (by simp)
          · split at hok
            · exact absurd hok (by simp)
            · next sA kA hA =>
                split at hok
                · exact absurd hok (by simp)
                · next sB kB hB =>
                    split at hok
                    · exact absurd hok (by simp)
                    · exact ⟨did, deck, sA, kA, sB, kB, hd, hdeck, hA, hB,
                        (by simpa using hok :).symm⟩

/-- C4: creating a card whose referenced deck is missing fails with the
deck-not-found error and leaves the store unchanged; when the transaction
fails at any flush or at the commit, the visible store is unchanged (no
partial card); and a successful create commits, in its single transition,
exactly one new card row together with the section rows of every supplied
nested section and a freshly allocated audio row per nested audio field (ids
unused by any pre-existing audio row). -/
theorem claim_C4_create_atomicity (io : Nat → Bool) (s : FCStore) (p : FlashcardCreate)
    (haud : ∀ a ∈ s.audio_files, a.id < s.next_audio_id) :
    ((∀ did, p.deck_id = some did → getDeck s did = none) →
      create_flashcard io s p = .error .deckNotFound ∧ runCreate io s p = s) ∧
    (∀ e, create_flashcard io s p = .error e → runCreate io s p = s) ∧
    (∀ s2, create_flashcard io s p = .ok s2 → ∃ did,
      p.deck_id = some did ∧ (getDeck s did).isSome = true ∧
      s2.cards = s.cards ++ [⟨s.next_card_id, did, p.stage⟩] ∧
      (p.discussion = none → s2.discussions = s.discussions) ∧
      (∀ d, p.discussion = some d → ∃ aid,
        s2.discussions = s.discussions ++
          [⟨s.next_card_id, d.ssml_text, d.text, some aid⟩] ∧
        (∃ a ∈ s2.audio_files, a.id = aid ∧ a.filename = d.audio.filename ∧
          a.timing_filename = d.audio.timing_filename) ∧
        (∀ b ∈ s.audio_files, b.id ≠ aid)) ∧
      (p.final_card = none → s2.final_cards = s.final_cards) ∧
      (∀ f, p.final_card = some f → ∃ qaid aaid, qaid ≠ aaid ∧
        s2.final_cards = s.final_cards ++
          [⟨s.next_card_id, f.front, f.back, some qaid, some aaid⟩] ∧
        (∃ a ∈ s2.audio_files, a.id = qaid ∧ a.filename = f.question_audio.filename ∧
          a.timing_filename = f.question_audio.timing_filename) ∧
        (∃ a ∈ s2.audio_files, a.id = aaid ∧ a.filename = f.answer_audio.filename ∧
          a.timing_filename = f.answer_audio.timing_filename) ∧
        (∀ b ∈ s.audio_files, b.id ≠ qaid ∧ b.id ≠ aaid)) ∧
      (p.fsrs = none → s2.fsrs_rows = s.fsrs_rows) ∧
      (∀ f, p.fsrs = some f → s2.fsrs_rows = s.fsrs_rows ++
        [⟨s.next_card_id, f.due.replaceTzNone, f.stability, f.difficulty,
          f.elapsed_days, f.scheduled_days, f.reps, f.lapses, f.state,
          f.learning_steps⟩])) := by
  refine ⟨?_, ?_, ?_⟩
  · intro hmiss
    have herr : create_flashcard io s p = .error .deckNotFound := by
      rcases hd : p.deck_id with _ | did
      · simp only [create_flashcard, hd]
      · simp only [create_flashcard, hd, hmiss did hd]
    exact ⟨herr, by unfold runCreate; rw [herr]⟩
  · intro e he
    unfold runCreate
    rw [he]
  · intro s2 hok
    obtain ⟨did, deck, sA, kA, sB, kB, hd, hdeck, hA, hB, hs2⟩ :=
      create_flashcard_ok_spec hok
    obtain ⟨hAdecks, hAcards, hAncid, hAfc, hAfsrs, DA⟩ := createDiscussion_spec hA
    obtain ⟨hBdecks, hBcards, hBncid, hBdisc, hBfsrs, DB⟩ := createFinalCard_spec hB
    have hBapp : ∃ lb, sB.audio_files = sA.audio_files ++ lb := by
      rcases DB with ⟨_, hsB, _⟩ | ⟨f, _, hBa, _, _, _⟩
      · exact ⟨[], by rw [hsB]; simp⟩
      · exact ⟨_, hBa⟩
    have hAnextlb : s.next_audio_id ≤ sA.next_audio_id := by
      rcases DA with ⟨_, hsA, _⟩ | ⟨d, _, _, _, hAnext, _⟩
      · rw [hsA]
      · rw [hAnext]
        exact Nat.le_succ _
    refine ⟨did, hd, by rw [hdeck]; rfl, ?_, ?_, ?_, ?_, ?_, ?_, ?_⟩
    · rw [hs2, createFSRS_cards, hBcards, hAcards]
    · intro hdn
      rcases DA with ⟨_, hsA, _⟩ | ⟨d, hd2, _, _, _, _⟩
      · rw [hs2, createFSRS_discussions, hBdisc, hsA]
      · rw [hd2] at hdn
        exact absurd hdn (by simp)
    · intro d hdd
      rcases DA with ⟨hdn, _, _⟩ | ⟨d2, hd2, hAaudio, hAdisc, hAnext, _⟩
      · rw [hdd] at hdn
        exact absurd hdn (by simp)
      · have hdd2 : d = d2 := by
          rw [hdd] at hd2
          simpa using hd2
        subst hdd2
        refine ⟨s.next_audio_id, ?_, ?_, ?_⟩
        · rw [hs2, createFSRS_discussions, hBdisc, hAdisc]
        · obtain ⟨lb, hlb⟩ := hBapp
          refine ⟨⟨s.next_audio_id, d.audio.filename, d.audio.timing_filename⟩,
            ?_, rfl, rfl, rfl⟩
          rw [hs2, createFSRS_audio, hlb, hAaudio]
          simp
        · intro b hb
          have := haud b hb
          omega
    · intro hfn
      rcases DB with ⟨_, hsB, _⟩ | ⟨f, hf2, _, _, _, _⟩
      · rw [hs2, createFSRS_final_cards, hsB, hAfc]
      · rw [hf2] at hfn
        exact absurd hfn (by simp)
    · intro f hff
      rcases DB with ⟨hfn, _, _⟩ | ⟨f2, hf2, hBa, hBfc, hBnext, _⟩
      · rw [hff] at hfn
        exact absurd hfn (by simp)
      · have hff2 : f = f2 := by
          rw [hff] at hf2
          simpa using hf2
        subst hff2
        refine ⟨sA.next_audio_id, sA.next_audio_id + 1, by omega, ?_, ?_, ?_, ?_⟩
        · rw [hs2, createFSRS_final_cards, hBfc, hAfc]
        · refine ⟨⟨sA.next_audio_id, f.question_audio.filename,
            f.question_audio.timing_filename⟩, ?_, rfl, rfl, rfl⟩
          rw [hs2, createFSRS_audio, hBa]
          simp
        · refine ⟨⟨sA.next_audio_id + 1, f.answer_audio.filename,
            f.answer_audio.timing_filename⟩, ?_, rfl, rfl, rfl⟩
          rw [hs2, createFSRS_audio, hBa]
          simp
        · intro b hb
          have := haud b hb
          constructor <;> omega
    · intro hfn
      rw [hs2, hfn, createFSRS_rows_none, hBfsrs, hAfsrs]
    · intro f hff
      rw [hs2, hff, createFSRS_rows_some, hBfsrs, hAfsrs]

/-- C4 witness: a concrete create of a bare card (no sections) into a
one-deck store whose audio ids are all below the allocator. -/
theorem claim_C4_witness :
    (∀ a ∈ (⟨[⟨1, "d", 1⟩], [], [], [], [], [], 0, 0⟩ : FCStore).audio_files,
      a.id < (⟨[⟨1, "d", 1⟩], [], [], [], [], [], 0, 0⟩ : FCStore).next_audio_id) ∧
    (((∀ did, (⟨some 1, 0, none, none, none⟩ : FlashcardCreate).deck_id = some did →
        getDeck ⟨[⟨1, "d", 1⟩], [], [], [], [], [], 0, 0⟩ did = none) →
      create_flashcard (fun _ => true) ⟨[⟨1, "d", 1⟩], [], [], [], [], [], 0, 0⟩
          ⟨some 1, 0, none, none, none⟩ = .error .deckNotFound ∧
      runCreate (fun _ => true) ⟨[⟨1, "d", 1⟩], [], [], [], [], [], 0, 0⟩
          ⟨some 1, 0, none, none, none⟩ = ⟨[⟨1, "d", 1⟩], [], [], [], [], [], 0, 0⟩) ∧
    (∀ e, create_flashcard (fun _ => true) ⟨[⟨1, "d", 1⟩], [], [], [], [], [], 0, 0⟩
        ⟨some 1, 0, none, none, none⟩ = .error e →
      runCreate (fun _ => true) ⟨[⟨1, "d", 1⟩], [], [], [], [], [], 0, 0⟩
        ⟨some 1, 0, none, none, none⟩ = ⟨[⟨1, "d", 1⟩], [], [], [], [], [], 0, 0⟩) ∧
    (∀ s2, create_flashcard (fun _ => true) ⟨[⟨1, "d", 1⟩], [], [], [], [], [], 0, 0⟩
        ⟨some 1, 0, none, none, none⟩ = .ok s2 → ∃ did,
      (⟨some 1, 0, none, none, none⟩ : FlashcardCreate).deck_id = some did ∧
      (getDeck ⟨[⟨1, "d", 1⟩], [], [], [], [], [], 0, 0⟩ did).isSome = true ∧
      s2.cards = (⟨[⟨1, "d", 1⟩], [], [], [], [], [], 0, 0⟩ : FCStore).cards ++
        [⟨(⟨[⟨1, "d", 1⟩], [], [], [], [], [], 0, 0⟩ : FCStore).next_card_id, did,
          (⟨some 1, 0, none, none, none⟩ : FlashcardCreate).stage⟩] ∧
      ((⟨some 1, 0, none, none, none⟩ : FlashcardCreate).discussion = none →
        s2.discussions =
          (⟨[⟨1, "d", 1⟩], [], [], [], [], [], 0, 0⟩ : FCStore).discussions) ∧
      (∀ d, (⟨some 1, 0, none, none, none⟩ : FlashcardCreate).discussion = some d →
        ∃ aid,
        s2.discussions =
          (⟨[⟨1, "d", 1⟩], [], [], [], [], [], 0, 0⟩ : FCStore).discussions ++
          [⟨(⟨[⟨1, "d", 1⟩], [], [], [], [], [], 0, 0⟩ : FCStore).next_card_id,
            d.ssml_text, d.text, some aid⟩] ∧
        (∃ a ∈ s2.audio_files, a.id = aid ∧ a.filename = d.audio.filename ∧
          a.timing_filename = d.audio.timing_filename) ∧
        (∀ b ∈ (⟨[⟨1, "d", 1⟩], [], [], [], [], [], 0, 0⟩ : FCStore).audio_files,
          b.id ≠ aid)) ∧
      ((⟨some 1, 0, none, none, none⟩ : FlashcardCreate).final_card = none →
        s2.final_cards =
          (⟨[⟨1, "d", 1⟩], [], [], [], [], [], 0, 0⟩ : FCStore).final_cards) ∧
      (∀ f, (⟨some 1, 0, none, none, none⟩ : FlashcardCreate).final_card = some f →
        ∃ qaid aaid, qaid ≠ aaid ∧
        s2.final_cards =
          (⟨[⟨1, "d", 1⟩], [], [], [], [], [], 0, 0⟩ : FCStore).final_cards ++
          [⟨(⟨[⟨1, "d", 1⟩], [], [], [], [], [], 0, 0⟩ : FCStore).next_card_id,
            f.front, f.back, some qaid, some aaid⟩] ∧
        (∃ a ∈ s2.audio_files, a.id = qaid ∧ a.filename = f.question_audio.filename ∧
          a.timing_filename = f.question_audio.timing_filename) ∧
        (∃ a ∈ s2.audio_files, a.id = aaid ∧ a.filename = f.answer_audio.filename ∧
          a.timing_filename = f.answer_audio.timing_filename) ∧
        (∀ b ∈ (⟨[⟨1, "d", 1⟩], [], [], [], [], [], 0, 0⟩ : FCStore).audio_files,
          b.id ≠ qaid ∧ b.id ≠ aaid)) ∧
      ((⟨some 1, 0, none, none, none⟩ : FlashcardCreate).fsrs = none →
        s2.fsrs_rows = (⟨[⟨1, "d", 1⟩], [], [], [], [], [], 0, 0⟩ : FCStore).fsrs_rows) ∧
      (∀ f, (⟨some 1, 0, none, none, none⟩ : FlashcardCreate).fsrs = some f →
        s2.fsrs_rows =
          (⟨[⟨1, "d", 1⟩], [], [], [], [], [], 0, 0⟩ : FCStore).fsrs_rows ++
          [⟨(⟨[⟨1, "d", 1⟩], [], [], [], [], [], 0, 0⟩ : FCStore).next_card_id,
            f.due.replaceTzNone, f.stability, f.difficulty, f.elapsed_days,
            f.scheduled_days, f.reps, f.lapses, f.state, f.learning_steps⟩]))) := by
  have haud : ∀ a ∈ (⟨[⟨1, "d", 1⟩], [], [], [], [], [], 0, 0⟩ : FCStore).audio_files,
      a.id < (⟨[⟨1, "d", 1⟩], [], [], [], [], [], 0, 0⟩ : FCStore).next_audio_id := by
    intro a ha
    simp at ha
  exact ⟨haud, claim_C4_create_atomicity (fun _ => true)
    ⟨[⟨1, "d", 1⟩], [], [], [], [], [], 0, 0⟩ ⟨some 1, 0, none, none, none⟩ haud⟩

/-- C9 counterexample: the input the claim's failing branch needs — an fsrs
section for a card with no stored fsrs row — makes the modelled
`update_flashcard` raise `TypeError` (line 168 passes the undeclared
`audio_id` keyword to `FlashcardFSRS`) before any commit, so the request
500s and no timezone-aware due is ever stored; the claimed divergence does
not occur. -/
theorem claim_C9_counterexample :
    update_flashcard ⟨[⟨1, "d", 1⟩], [⟨1, 1, 0⟩], [], [], [], [], 2, 0⟩ 1
        ⟨none, none, none, none,
         some ⟨⟨0, some 3600⟩, none, none, none, none, none, none, none, none, none⟩⟩ =
      .error .typeError ∧
    ∀ s2, update_flashcard ⟨[⟨1, "d", 1⟩], [⟨1, 1, 0⟩], [], [], [], [], 2, 0⟩ 1
        ⟨none, none, none, none,
         some ⟨⟨0, some 3600⟩, none, none, none, none, none, none, none, none, none⟩⟩ ≠
      .ok s2 := by
  refine ⟨rfl, ?_⟩
  intro s2 h
  have herr : update_flashcard ⟨[⟨1, "d", 1⟩], [⟨1, 1, 0⟩], [], [], [], [], 2, 0⟩ 1
      ⟨none, none, none, none,
       some ⟨⟨0, some 3600⟩, none, none, none, none, none, none, none, none, none⟩⟩ =
    .error .typeError := rfl
  rw [herr] at h
  exact Except.noConfusion h

/-- C9 (amended): every fsrs row a committing request stores carries a
timezone-naive due — the create path normalizes with
`payload.fsrs.due.replace(tzinfo=None)` (line 99), the update path's
existing-row branch normalizes the same way (line 158), and the update
path's absent-row branch never commits at all (its line-168
`FlashcardFSRS(..., audio_id=...)` call raises `TypeError` first), so no
write path stores a timezone-aware due. -/
theorem claim_C9_due_naive (io : Nat → Bool) (s : FCStore) (p : FlashcardCreate)
    (fid : Nat) (q : FlashcardUpdate) :
    (∀ s2, create_flashcard io s p = .ok s2 →
      ∀ r ∈ s2.fsrs_rows, r ∉ s.fsrs_rows → r.due.tz = none) ∧
    (∀ s2, update_flashcard s fid q = .ok s2 →
      ∀ r ∈ s2.fsrs_rows, r ∉ s.fsrs_rows → r.due.tz = none) ∧
    (∀ f, q.fsrs = some f →
      s.fsrs_rows.find? (fun r => r.flashcard_id == fid) = none →
      ∀ s2, update_flashcard s fid q ≠ .ok s2) := by
  refine ⟨?_, ?_, ?_⟩
  · intro s2 hok r hr hnotin
    obtain ⟨did, deck, sA, kA, sB, kB, hd, hdeck, hA, hB, hs2⟩ :=
      create_flashcard_ok_spec hok
    have hAfsrs : sA.fsrs_rows = s.fsrs_rows := (createDiscussion_spec hA).2.2.2.2.1
    have hBfsrs : sB.fsrs_rows = sA.fsrs_rows := (createFinalCard_spec hB).2.2.2.2.1
    rcases hpf : p.fsrs with _ | f
    · rw [hs2, hpf, createFSRS_rows_none, hBfsrs, hAfsrs] at hr
      exact absurd hr hnotin
    · rw [hs2, hpf, createFSRS_rows_some, hBfsrs, hAfsrs] at hr
      rcases List.mem_append.mp hr with hr | hr
      · exact absurd hr hnotin
      · have hre : r = ⟨s.next_card_id, f.due.replaceTzNone, f.stability,
            f.difficulty, f.elapsed_days, f.scheduled_days, f.reps, f.lapses,
            f.state, f.learning_steps⟩ := by
          simpa using hr
        rw [hre]
        rfl
  · intro s2 hok r hr hnotin
    obtain ⟨hg, hd, hf, hs2⟩ := update_flashcard_ok_spec hok
    subst hs2
    have hr2 : r ∈ overwriteFSRS s fid q.fsrs := hr
    rcases hq : q.fsrs with _ | f
    · rw [hq] at hr2
      exact absurd hr2 hnotin
    · rw [hq] at hr2
      simp only [overwriteFSRS] at hr2
      obtain ⟨r0, hr0, heq⟩ := List.mem_map.mp hr2
      by_cases hc : (r0.flashcard_id == fid) = true
      · rw [if_pos hc] at heq
        subst heq
        rfl
      · rw [if_neg hc] at heq
        subst heq
        exact absurd hr0 hnotin
  · intro f hqf hfind s2 hok
    obtain ⟨hg, _, _, _⟩ := update_flashcard_ok_spec hok
    rw [hqf, hfind] at hg
    simp at hg

/-- C9 witness: a committing update (the card's fsrs row exists) at a
concrete store stores a row whose due is timezone-naive even though the
payload due carries a +3600s offset. -/
theorem claim_C9_witness :
    update_flashcard
        ⟨[⟨1, "d", 1⟩], [⟨1, 1, 0⟩], [], [],
         [⟨1, ⟨5, none⟩, some 5, none, none, none, none, none, none, none⟩], [], 2, 0⟩ 1
        ⟨none, none, none, none,
         some ⟨⟨9, some 3600⟩, none, none, none, none, none, none, none, none, none⟩⟩ =
      .ok ⟨[⟨1, "d", 1⟩], [⟨1, 1, 0⟩], [], [],
           [⟨1, ⟨9, none⟩, none, none, none, none, none, none, none, none⟩], [], 2,
           0⟩ ∧
    ∀ r ∈ (⟨[⟨1, "d", 1⟩], [⟨1, 1, 0⟩], [], [],
        [⟨1, ⟨9, none⟩, none, none, none, none, none, none, none, none⟩], [], 2,
        0⟩ : FCStore).fsrs_rows,
      r ∉ (⟨[⟨1, "d", 1⟩], [⟨1, 1, 0⟩], [], [],
        [⟨1, ⟨5, none⟩, some 5, none, none, none, none, none, none, none⟩], [], 2,
        0⟩ : FCStore).fsrs_rows → r.due.tz = none := by
  have hok : update_flashcard
      ⟨[⟨1, "d", 1⟩], [⟨1, 1, 0⟩], [], [],
       [⟨1, ⟨5, none⟩, some 5, none, none, none, none, none, none, none⟩], [], 2, 0⟩ 1
      ⟨none, none, none, none,
       some ⟨⟨9, some 3600⟩, none, none, none, none, none, none, none, none, none⟩⟩ =
    .ok ⟨[⟨1, "d", 1⟩], [⟨1, 1, 0⟩], [], [],
         [⟨1, ⟨9, none⟩, none, none, none, none, none, none, none, none⟩], [], 2,
         0⟩ := rfl
  exact ⟨hok, (claim_C9_due_naive (fun _ => true)
    ⟨[⟨1, "d", 1⟩], [⟨1, 1, 0⟩], [], [],
     [⟨1, ⟨5, none⟩, some 5, none, none, none, none, none, none, none⟩], [], 2, 0⟩
    ⟨some 1, 0, none, none, none⟩ 1
    ⟨none, none, none, none,
     some ⟨⟨9, some 3600⟩, none, none, none, none, none, none, none, none,
       none⟩⟩).2.1 _ hok⟩

/-! ### Delete claims -/

/-- C8 (code evaluation at the failing input): deleting a card, or its deck,
removes the card together with its discussion, final-card and fsrs rows —
but the `AudioFile` rows those sections own survive, orphaned: the audio
relationships are declared `cascade="all, delete-orphan", single_parent=True`
yet also `passive_deletes=True`, the delete path never loads them, and no
database-side rule deletes `audio_files` rows in that foreign-key direction,
while the claim (and the declared cascade) says the owned audio rows are
deleted with their owner.  The store holds one deck, one card whose
discussion owns audio 10 and whose final card owns audio 11 and 12; after
either delete the three audio rows remain although no section references
them any more. -/
theorem claim_C8_orphaned_audio :
    delete_flashcard
        ⟨[⟨1, "d", 1⟩], [⟨1, 1, 0⟩], [⟨1, "s", "t", some 10⟩],
         [⟨1, "f", "b", some 11, some 12⟩],
         [⟨1, ⟨0, none⟩, none, none, none, none, none, none, none, none⟩],
         [⟨10, "a", "ta"⟩, ⟨11, "q", "tq"⟩, ⟨12, "w", "tw"⟩], 2, 13⟩ 1 =
      .ok ⟨[⟨1, "d", 1⟩], [], [], [], [],
           [⟨10, "a", "ta"⟩, ⟨11, "q", "tq"⟩, ⟨12, "w", "tw"⟩], 2, 13⟩ ∧
    delete_deck
        ⟨[⟨1, "d", 1⟩], [⟨1, 1, 0⟩], [⟨1, "s", "t", some 10⟩],
         [⟨1, "f", "b", some 11, some 12⟩],
         [⟨1, ⟨0, none⟩, none, none, none, none, none, none, none, none⟩],
         [⟨10, "a", "ta"⟩, ⟨11, "q", "tq"⟩, ⟨12, "w", "tw"⟩], 2, 13⟩ 1 2 =
      .ok ⟨[], [], [], [], [],
           [⟨10, "a", "ta"⟩, ⟨11, "q", "tq"⟩, ⟨12, "w", "tw"⟩], 2, 13⟩ ∧
    ((⟨1, "s", "t", some 10⟩ : DiscussionRow) ∈
      (⟨[⟨1, "d", 1⟩], [⟨1, 1, 0⟩], [⟨1, "s", "t", some 10⟩],
        [⟨1, "f", "b", some 11, some 12⟩],
        [⟨1, ⟨0, none⟩, none, none, none, none, none, none, none, none⟩],
        [⟨10, "a", "ta"⟩, ⟨11, "q", "tq"⟩, ⟨12, "w", "tw"⟩], 2,
        13⟩ : FCStore).discussions ∧
     (⟨1, "f", "b", some 11, some 12⟩ : FinalCardRow) ∈
      (⟨[⟨1, "d", 1⟩], [⟨1, 1, 0⟩], [⟨1, "s", "t", some 10⟩],
        [⟨1, "f", "b", some 11, some 12⟩],
        [⟨1, ⟨0, none⟩, none, none, none, none, none, none, none, none⟩],
        [⟨10, "a", "ta"⟩, ⟨11, "q", "tq"⟩, ⟨12, "w", "tw"⟩], 2,
        13⟩ : FCStore).final_cards) ∧
    ((∃ a ∈ (⟨[], [], [], [], [],
        [⟨10, "a", "ta"⟩, ⟨11, "q", "tq"⟩, ⟨12, "w", "tw"⟩], 2,
        13⟩ : FCStore).audio_files, a.id = 10) ∧
     (∃ a ∈ (⟨[], [], [], [], [],
        [⟨10, "a", "ta"⟩, ⟨11, "q", "tq"⟩, ⟨12, "w", "tw"⟩], 2,
        13⟩ : FCStore).audio_files, a.id = 11) ∧
     (∃ a ∈ (⟨[], [], [], [], [],
        [⟨10, "a", "ta"⟩, ⟨11, "q", "tq"⟩, ⟨12, "w", "tw"⟩], 2,
        13⟩ : FCStore).audio_files, a.id = 12) ∧
     (⟨[], [], [], [], [],
        [⟨10, "a", "ta"⟩, ⟨11, "q", "tq"⟩, ⟨12, "w", "tw"⟩], 2,
        13⟩ : FCStore).discussions = [] ∧
     (⟨[], [], [], [], [],
        [⟨10, "a", "ta"⟩, ⟨11, "q", "tq"⟩, ⟨12, "w", "tw"⟩], 2,
        13⟩ : FCStore).final_cards = []) := by
  refine ⟨rfl, rfl, by decide, ?_⟩
  refine ⟨⟨⟨10, "a", "ta"⟩, by decide, rfl⟩, ⟨⟨11, "q", "tq"⟩, by decide, rfl⟩,
    ⟨⟨12, "w", "tw"⟩, by decide, rfl⟩, rfl, rfl⟩

end BrainFlash
